import Mathlib

/-!
# Loafy booking platform — shallow embedding of the reservation core

This file embeds, in Lean, the slot-reservation / ticket-ledger core of the
Loafy booking backend (Rust crates `core`, `db`, `jobs`), and proves/refutes
the specification's claims about it.

Modelling conventions:
* database tables become Lean lists (`sessions` is a list of `(id, row)`
  pairs, matching the primary-key access pattern); SQL `UPDATE ... WHERE`
  becomes a `List.map` that patches every matching row; `fetch_optional`
  becomes `List.find?`; `fetch_one` failing on zero rows becomes `Option`;
* Rust `i32` arithmetic is modelled with `Int` (all quantities handled by the
  code are far below the `i32` overflow threshold in the regimes the claims
  quantify over; Rust `/` truncates toward zero and is rendered `Int.tdiv`);
* timestamps are `Int` minutes; `chrono::Duration::minutes 30` is `+ 30`,
  `Duration::hours h` is `h * 60`, a session's start instant is
  `date * 1440 + time`, and `Duration::num_hours` is `Int.tdiv · 60`;
* `create_booking_with_lock` runs inside one SQL transaction under
  `SELECT ... FOR UPDATE` on the session row (and on the subscription row),
  so concurrent invocations over the same session serialize; it is therefore
  embedded as one atomic state transformer, and "arbitrary concurrent
  invocation" is an arbitrary sequence of such atomic steps.  Any mid-way
  storage failure rolls the transaction back, which in this model is the
  identity on the state;
* `cancel_booking` and `release_unpaid_bookings` issue every statement
  directly on the pool (no transaction in the Rust source), so they are
  embedded step-by-step with an explicit fault oracle: each storage statement
  can independently fail, and effects of completed statements persist.
-/

/-- Error taxonomy of `loafy_types::AppError` (payload-carrying variants keep
their message strings). -/
inductive AppError where
  | notFound (msg : String)
  | conflict (msg : String)
  | badRequest (msg : String)
  | forbidden
  | internal (msg : String)
  | database (msg : String)
  deriving DecidableEq, Repr

/-- A row of the `sessions` table (fields the booking core reads or writes;
cosmetic columns like `title`, `location`, `qr_code_url` are omitted as no
modelled operation depends on them). -/
structure Session where
  date : Int
  time : Int
  courts : Int
  maxPlayersPerCourt : Option Int
  totalSlots : Int
  availableSlots : Int
  priceVnd : Option Int
  dropInCancellationHours : Option Int
  subscriberCancellationHours : Option Int
  cancelled : Bool
  deriving DecidableEq, Repr

/-- A row of the `bookings` table (fields the booking core reads or writes). -/
structure Booking where
  id : Nat
  userId : Nat
  sessionId : Nat
  bookingCode : String
  guestCount : Int
  ticketsUsed : Int
  discountApplied : String
  pricePaidVnd : Int
  guestPricePaidVnd : Int
  paymentMethod : String
  paymentStatus : String
  paymentDeadline : Option Int
  cancelledAt : Option Int
  deriving DecidableEq, Repr

/-- A row of the `subscriptions` table (fields the booking core reads or
writes). -/
structure Subscription where
  id : Nat
  userId : Nat
  status : String
  ticketsRemaining : Int
  deriving DecidableEq, Repr

/-- A row of the append-only `ticket_transactions` ledger. -/
structure TicketTransaction where
  userId : Nat
  subscriptionId : Option Nat
  bookingId : Option Nat
  transactionType : String
  amount : Int
  balanceAfter : Int
  createdAt : Nat
  deriving DecidableEq, Repr

/-- The database state visible to the booking core.  `nextBookingId` models
the id generator for inserted bookings, `nextCreatedAt` the monotonically
increasing `created_at` clock for ledger rows (so later list position means
later `created_at`).  `configOutOfTicketDiscount` is the
`subscriber_out_of_ticket_discount_percent` row of the `config` table. -/
structure DB where
  sessions : List (Nat × Session)
  bookings : List Booking
  subscriptions : List Subscription
  ticketTransactions : List TicketTransaction
  configOutOfTicketDiscount : Option Int
  nextBookingId : Nat
  nextCreatedAt : Nat
  deriving DecidableEq, Repr

/-- Primary-key well-formedness (the SQL schema's PK constraints) together
with freshness of the booking id generator. -/
def DB.WF (db : DB) : Prop :=
  (db.sessions.map Prod.fst).Nodup ∧
  (db.subscriptions.map Subscription.id).Nodup ∧
  (db.bookings.map Booking.id).Nodup ∧
  ∀ b ∈ db.bookings, b.id < db.nextBookingId

instance (db : DB) : Decidable db.WF := by
  unfold DB.WF; infer_instance

/-! ## Query layer (`loafy_db::queries`) -/

/-- `sessions::find_by_id` (also `find_by_id_for_update`, which reads the same
row under a `FOR UPDATE` lock). -/
def findSessionById (db : DB) (id : Nat) : Option Session :=
  (db.sessions.find? (fun p => p.1 == id)).map Prod.snd

/-- `sessions::decrement_available_slots`:
`UPDATE sessions SET available_slots = available_slots - $2 WHERE id = $1`. -/
def decrementAvailableSlots (db : DB) (sessionId : Nat) (count : Int) : DB :=
  { db with sessions := db.sessions.map (fun p =>
      if p.1 == sessionId then (p.1, { p.2 with availableSlots := p.2.availableSlots - count })
      else p) }

/-- `sessions::increment_available_slots`:
`UPDATE sessions SET available_slots = available_slots + $2 WHERE id = $1`. -/
def incrementAvailableSlots (db : DB) (sessionId : Nat) (count : Int) : DB :=
  { db with sessions := db.sessions.map (fun p =>
      if p.1 == sessionId then (p.1, { p.2 with availableSlots := p.2.availableSlots + count })
      else p) }

/-- `bookings::find_by_id`. -/
def findBookingById (db : DB) (id : Nat) : Option Booking :=
  db.bookings.find? (fun b => b.id == id)

/-- `bookings::has_active_booking_for_session`: counts rows with matching
user and session and `cancelled_at IS NULL`. -/
def hasActiveBookingForSession (db : DB) (userId sessionId : Nat) : Bool :=
  db.bookings.any (fun b =>
    b.userId == userId && b.sessionId == sessionId && b.cancelledAt == none)

/-- `bookings::cancel_booking`:
`UPDATE bookings SET cancelled_at = NOW(), payment_status = 'cancelled'
WHERE id = $1 RETURNING *` — `fetch_one` errors when no row matches, hence
the `Option`.  Note the statement has no `cancelled_at IS NULL` guard. -/
def cancelBookingRow (db : DB) (id : Nat) (now : Int) : Option (Booking × DB) :=
  match db.bookings.find? (fun b => b.id == id) with
  | none => none
  | some b =>
      some ({ b with cancelledAt := some now, paymentStatus := "cancelled" },
        { db with bookings := db.bookings.map (fun x =>
            if x.id == id then { x with cancelledAt := some now, paymentStatus := "cancelled" }
            else x) })

/-- `bookings::find_unpaid_expired_bookings`: rows with
`payment_status = 'pending' AND payment_deadline < $1 AND cancelled_at IS NULL`. -/
def findUnpaidExpiredBookings (db : DB) (before : Int) : List Booking :=
  db.bookings.filter (fun b =>
    b.paymentStatus == "pending" &&
    (match b.paymentDeadline with
     | some d => decide (d < before)
     | none => false) &&
    b.cancelledAt == none)

/-- `subscriptions::find_by_user_id` (first row for the user). -/
def findSubscriptionByUserId (db : DB) (userId : Nat) : Option Subscription :=
  db.subscriptions.find? (fun s => s.userId == userId)

/-- `subscriptions::has_active_subscription`. -/
def hasActiveSubscription (db : DB) (userId : Nat) : Bool :=
  db.subscriptions.any (fun s => s.userId == userId && s.status == "active")

/-- `subscriptions::get_active_for_booking` (the `FOR UPDATE`-locked read of
the user's active subscription row). -/
def getActiveForBooking (db : DB) (userId : Nat) : Option Subscription :=
  db.subscriptions.find? (fun s => s.userId == userId && s.status == "active")

/-- `subscriptions::deduct_ticket`:
`UPDATE subscriptions SET tickets_remaining = tickets_remaining - 1
WHERE id = $1 AND tickets_remaining > 0 RETURNING tickets_remaining` —
`fetch_one` errors when no row qualifies, hence the `Option`. -/
def deductTicket (db : DB) (subscriptionId : Nat) : Option (Int × DB) :=
  match db.subscriptions.find? (fun s => s.id == subscriptionId && s.ticketsRemaining > 0) with
  | none => none
  | some s =>
      some (s.ticketsRemaining - 1,
        { db with subscriptions := db.subscriptions.map (fun x =>
            if x.id == subscriptionId && x.ticketsRemaining > 0 then
              { x with ticketsRemaining := x.ticketsRemaining - 1 }
            else x) })

/-- `subscriptions::restore_ticket`:
`UPDATE subscriptions SET tickets_remaining = tickets_remaining + 1
WHERE id = $1 RETURNING tickets_remaining`. -/
def restoreTicket (db : DB) (subscriptionId : Nat) : Option (Int × DB) :=
  match db.subscriptions.find? (fun s => s.id == subscriptionId) with
  | none => none
  | some s =>
      some (s.ticketsRemaining + 1,
        { db with subscriptions := db.subscriptions.map (fun x =>
            if x.id == subscriptionId then { x with ticketsRemaining := x.ticketsRemaining + 1 }
            else x) })

/-- `ticket_transactions::create` / `create_with_pool`: append a ledger row
(`created_at` defaults to `NOW()`, modelled by the monotone counter). -/
def createTicketTransaction (db : DB) (userId : Nat) (subscriptionId : Option Nat)
    (bookingId : Option Nat) (transactionType : String) (amount : Int)
    (balanceAfter : Int) : DB × TicketTransaction :=
  let t : TicketTransaction :=
    { userId := userId, subscriptionId := subscriptionId, bookingId := bookingId,
      transactionType := transactionType, amount := amount,
      balanceAfter := balanceAfter, createdAt := db.nextCreatedAt }
  ({ db with ticketTransactions := db.ticketTransactions ++ [t],
             nextCreatedAt := db.nextCreatedAt + 1 }, t)

/-- `config::get_out_of_ticket_discount`: the config row parsed as `i32`,
defaulting to `10` when absent. -/
def getOutOfTicketDiscount (db : DB) : Int :=
  db.configOutOfTicketDiscount.getD 10

/-- Patch the last list element satisfying `p` (SQL
`ORDER BY created_at DESC LIMIT 1` over the append-ordered ledger). -/
def patchLastMatching (p : TicketTransaction → Bool)
    (f : TicketTransaction → TicketTransaction) :
    List TicketTransaction → List TicketTransaction
  | [] => []
  | t :: rest =>
      if rest.any p then t :: patchLastMatching p f rest
      else if p t then f t :: rest
      else t :: rest

/-! ## Reservation Transaction (`core::booking::create`) -/

/-- `create_booking_with_lock` (crates/core/src/booking/create.rs).

The whole body runs inside one SQL transaction with the session row locked
`FOR UPDATE`, so it is an atomic step; a storage failure anywhere rolls the
transaction back (state unchanged, error returned), so only the successful
path mutates the state.  `nowDate` is `chrono::Local::now().date()` (local
day number), `now` the UTC instant in minutes, `bookingCode` the random code
produced by `generate_booking_code`. -/
def createBookingWithLock (db : DB) (userId sessionId : Nat) (guestCount : Int)
    (paymentMethod : String) (nowDate now : Int) (bookingCode : String) :
    Except AppError (DB × Booking) :=
  match findSessionById db sessionId with
  | none => .error (.notFound "Session not found")
  | some session =>
    if hasActiveBookingForSession db userId sessionId then
      .error (.conflict "You already have a booking for this session")
    else if session.cancelled then
      .error (.badRequest "Session is cancelled")
    else if session.date < nowDate then
      .error (.badRequest "Session is in the past")
    else
      let slotsNeeded := 1 + guestCount
      if session.availableSlots < slotsNeeded then
        .error (.conflict ("Not enough slots available. Need " ++ toString slotsNeeded ++
          ", have " ++ toString session.availableSlots))
      else
        let basePriceVnd := session.priceVnd.getD 100000
        -- common tail after the (tickets_used, discount_applied, user_price_vnd,
        -- subscription_id) tuple has been determined
        let finish := fun (db1 : DB) (ticketsUsed : Int) (discountApplied : String)
            (userPriceVnd : Int) (subscriptionId : Option Nat) =>
          let guestPriceVnd := basePriceVnd * guestCount
          let totalAmount := userPriceVnd + guestPriceVnd
          let paymentStatus := if totalAmount == 0 then "confirmed" else "pending"
          let paymentDeadline := if totalAmount > 0 then some (now + 30) else none
          let booking : Booking :=
            { id := db1.nextBookingId, userId := userId, sessionId := sessionId,
              bookingCode := bookingCode, guestCount := guestCount,
              ticketsUsed := ticketsUsed, discountApplied := discountApplied,
              pricePaidVnd := userPriceVnd, guestPricePaidVnd := guestPriceVnd,
              paymentMethod := paymentMethod, paymentStatus := paymentStatus,
              paymentDeadline := paymentDeadline, cancelledAt := none }
          let db2 := { db1 with bookings := db1.bookings ++ [booking],
                                nextBookingId := db1.nextBookingId + 1 }
          let db3 :=
            if ticketsUsed > 0 then
              match subscriptionId with
              | some subId =>
                  { db2 with ticketTransactions :=
                      (patchLastMatching
                        (fun t => t.userId == userId && t.subscriptionId == some subId &&
                          t.transactionType == "used" && t.bookingId == none)
                        (fun t => { t with bookingId := some booking.id })
                        db2.ticketTransactions) }
              | none => db2
            else db2
          let db4 := decrementAvailableSlots db3 sessionId slotsNeeded
          Except.ok (db4, booking)
        match getActiveForBooking db userId with
        | some sub =>
          if sub.ticketsRemaining > 0 then
            match deductTicket db sub.id with
            | none => .error (.database "deduct_ticket: no row")
            | some (newBalance, dbA) =>
                let dbB := (createTicketTransaction dbA userId (some sub.id) none
                  "used" (-1) newBalance).1
                finish dbB 1 "ticket" 0 (some sub.id)
          else
            let discountPercent := getOutOfTicketDiscount db
            let discountedPrice := Int.tdiv (basePriceVnd * (100 - discountPercent)) 100
            finish db 0 "out_of_ticket" discountedPrice (some sub.id)
        | none => finish db 0 "none" basePriceVnd none

/-! ## Cancellation Transaction (`core::booking::cancel`) -/

/-- Default cancellation hours when the session row has none configured
(constants at the top of cancel.rs). -/
def defaultDropInCancellationHours : Int := 48

/-- Default subscriber cancellation hours (cancel.rs). -/
def defaultSubscriberCancellationHours : Int := 24

/-- Fault oracle for `cancel_booking`: the Rust function issues every storage
statement directly on the pool (no transaction), so each statement can fail
independently while earlier statements' effects persist.  A `true` field
makes the corresponding statement return a storage error. -/
structure CancelFaults where
  findBooking : Bool := false
  findSession : Bool := false
  activeSubQuery : Bool := false
  findSubscription : Bool := false
  restoreTicketStmt : Bool := false
  createTransactionStmt : Bool := false
  cancelRow : Bool := false
  incrementSlots : Bool := false
  deriving DecidableEq, Repr

/-- The fault-free oracle (every storage statement succeeds). -/
def noCancelFaults : CancelFaults := {}

/-- The `BadRequest` message built by cancel.rs when the cancellation
deadline has passed. -/
def cancellationDeadlineMessage (isSubscriber : Bool) (cancellationHours hoursUntilSession : Int) :
    String :=
  "Cancellation deadline has passed. " ++
    (if isSubscriber then "Subscribers" else "Drop-in players") ++
    " must cancel at least " ++ toString cancellationHours ++
    " hours before the session. Session starts in " ++
    toString (max hoursUntilSession 0) ++ " hours."

/-- The ticket-restore block shared verbatim by `cancel_booking` and by the
reaper loop body: when the booking consumed a ticket, look up the user's
subscription (`if let Ok(Some(..))` — lookup errors are swallowed), restore
one ticket (errors swallowed), and append a `restored` ledger entry
(`let _ =` — append errors are swallowed).  The three Booleans inject a
storage failure into the corresponding statement. -/
def restoreTicketAndLog (fFind fRestore fCreate : Bool) (db : DB)
    (userId bookingId : Nat) (ticketsUsed : Int) : DB :=
  if ticketsUsed > 0 then
    if fFind then db else
    match findSubscriptionByUserId db userId with
    | none => db
    | some subscription =>
      if fRestore then db else
      match restoreTicket db subscription.id with
      | none => db
      | some (newBalance, dbR) =>
        if fCreate then dbR else
        (createTicketTransaction dbR userId (some subscription.id) (some bookingId)
          "restored" 1 newBalance).1
  else db

/-- `cancel_booking` (crates/core/src/booking/cancel.rs).

Unlike creation, every step runs directly on the pool: the result is paired
with the final state, and effects of statements completed before a failure
remain in that state.  The ticket-restore block mirrors the source's
`if let Ok(Some(..))` / `if let Ok(..)` / `let _ =` silent-failure handling:
a failing subscription lookup, restore, or ledger append is swallowed and the
cancellation proceeds. -/
def cancelBooking (f : CancelFaults) (db : DB) (bookingId userId : Nat) (now : Int) :
    Except AppError Booking × DB :=
  if f.findBooking then (.error (.internal "find_by_id"), db) else
  match findBookingById db bookingId with
  | none => (.error (.notFound "Booking not found"), db)
  | some booking =>
    if booking.userId ≠ userId then (.error .forbidden, db) else
    if booking.cancelledAt ≠ none then
      (.error (.badRequest "Booking already cancelled"), db) else
    if f.findSession then (.error (.internal "find_by_id session"), db) else
    match findSessionById db booking.sessionId with
    | none => (.error (.notFound "Session not found"), db)
    | some session =>
      if f.activeSubQuery then (.error (.internal "has_active_subscription"), db) else
      let isSubscriber := hasActiveSubscription db userId
      let cancellationHours :=
        if isSubscriber then
          session.subscriberCancellationHours.getD defaultSubscriberCancellationHours
        else
          session.dropInCancellationHours.getD defaultDropInCancellationHours
      let sessionStart := session.date * 1440 + session.time
      let cancellationDeadline := sessionStart - cancellationHours * 60
      if now > cancellationDeadline then
        let hoursUntilSession := Int.tdiv (sessionStart - now) 60
        (.error (.badRequest
          (cancellationDeadlineMessage isSubscriber cancellationHours hoursUntilSession)), db)
      else
        let db1 := restoreTicketAndLog f.findSubscription f.restoreTicketStmt
          f.createTransactionStmt db userId bookingId booking.ticketsUsed
        if f.cancelRow then (.error (.internal "cancel_booking"), db1) else
        match cancelBookingRow db1 bookingId now with
        | none => (.error (.internal "cancel_booking: no row"), db1)
        | some (cancelledBooking, db2) =>
          if f.incrementSlots then (.error (.internal "increment_available_slots"), db2) else
          let slotsToReturn := 1 + booking.guestCount
          (.ok cancelledBooking, incrementAvailableSlots db2 booking.sessionId slotsToReturn)

/-! ## Expiry Reaper (`jobs::release_unpaid`) -/

/-- Fault oracle for one iteration of `release_unpaid_bookings` (same
pool-per-statement model as cancellation). -/
structure ReleaseFaults where
  findSubscription : Bool := false
  restoreTicketStmt : Bool := false
  createTransactionStmt : Bool := false
  cancelRow : Bool := false
  incrementSlots : Bool := false
  deriving DecidableEq, Repr

/-- The fault-free reaper oracle. -/
def noReleaseFaults : ReleaseFaults := {}

/-- The body of the `for booking in expired_bookings` loop of
`release_unpaid_bookings`: restore the ticket (failures logged and
swallowed), cancel the booking (failure logged, slot release skipped), then
return the slots (failure logged). -/
def releaseOne (f : ReleaseFaults) (db : DB) (booking : Booking) (now : Int) : DB :=
  let db1 := restoreTicketAndLog f.findSubscription f.restoreTicketStmt
    f.createTransactionStmt db booking.userId booking.id booking.ticketsUsed
  if f.cancelRow then db1 else
  match cancelBookingRow db1 booking.id now with
  | none => db1
  | some (_, db2) =>
    if f.incrementSlots then db2 else
    incrementAvailableSlots db2 booking.sessionId (1 + booking.guestCount)

/-- `release_unpaid_bookings` (crates/jobs/src/jobs/release_unpaid.rs): fetch
the expired list once, then process each booking independently; a failure on
one booking never aborts the others.  The oracle assigns each booking id its
own faults. -/
def releaseUnpaidBookings (faults : Nat → ReleaseFaults) (db : DB) (now : Int) : DB :=
  (findUnpaidExpiredBookings db now).foldl
    (fun d b => releaseOne (faults b.id) d b now) db

/-! ## Session creation and update (`queries::sessions`) -/

/-- `sessions::create_session`: `total_slots = courts * max_players_per_court
(default 6)` and `available_slots` starts equal to `total_slots` (the INSERT
binds `$8` for both columns); the cancellation-hour columns take their SQL
defaults (NULL). -/
def createSession (db : DB) (id : Nat) (date time : Int) (courts : Int)
    (maxPlayersPerCourt : Option Int) (priceVnd : Option Int) : DB × Session :=
  let maxPlayers := maxPlayersPerCourt.getD 6
  let totalSlots := courts * maxPlayers
  let session : Session :=
    { date := date, time := time, courts := courts,
      maxPlayersPerCourt := maxPlayersPerCourt,
      totalSlots := totalSlots, availableSlots := totalSlots,
      priceVnd := priceVnd, dropInCancellationHours := none,
      subscriberCancellationHours := none, cancelled := false }
  ({ db with sessions := db.sessions ++ [(id, session)] }, session)

/-- `sessions::update_session`: recomputes `total_slots` from the (possibly
updated) courts and capacity, then sets
`available_slots = max (new_total_slots - booked_slots) 0` where
`booked_slots = total_slots - available_slots`; the remaining columns are
`COALESCE`d.  Cosmetic columns (title, location) are omitted. -/
def updateSession (db : DB) (id : Nat) (date time : Option Int)
    (courts maxPlayersPerCourt priceVnd : Option Int) :
    Except String (DB × Session) :=
  match findSessionById db id with
  | none => .error "Session not found"
  | some current =>
    let newCourts := courts.getD current.courts
    let newMaxPlayers := (maxPlayersPerCourt.or current.maxPlayersPerCourt).getD 6
    let newTotalSlots := newCourts * newMaxPlayers
    let bookedSlots := current.totalSlots - current.availableSlots
    let newAvailableSlots := max (newTotalSlots - bookedSlots) 0
    let updated : Session :=
      { current with
          date := date.getD current.date,
          time := time.getD current.time,
          courts := newCourts,
          maxPlayersPerCourt := maxPlayersPerCourt.or current.maxPlayersPerCourt,
          totalSlots := newTotalSlots,
          availableSlots := newAvailableSlots,
          priceVnd := priceVnd.or current.priceVnd }
    .ok ({ db with sessions := db.sessions.map (fun p =>
            if p.1 == id then (p.1, updated) else p) }, updated)

/-! ## Invariants from the spec's data model -/

/-- Slots consumed by one reservation: `1 + guest_count`
(`calculate_total_slots` in booking/utils.rs). -/
def slotsConsumed (b : Booking) : Int := 1 + b.guestCount

/-- The non-cancelled reservations of a session. -/
def activeSessionBookings (db : DB) (sessionId : Nat) : List Booking :=
  db.bookings.filter (fun b => b.sessionId == sessionId && b.cancelledAt == none)

/-- Total slots consumed by a session's active reservations. -/
def consumedSlots (db : DB) (sessionId : Nat) : Int :=
  ((activeSessionBookings db sessionId).map slotsConsumed).sum

/-- The capacity invariant for one session row:
`available_slots ∈ [0, total_slots]` and
`total_slots - available_slots = sum of active reservations' slots`. -/
def sessionInv (db : DB) (sessionId : Nat) (s : Session) : Prop :=
  0 ≤ s.availableSlots ∧ s.availableSlots ≤ s.totalSlots ∧
  s.totalSlots - s.availableSlots = consumedSlots db sessionId

/-- The capacity invariant over every session row. -/
def dbSessionInv (db : DB) : Prop :=
  ∀ p ∈ db.sessions, sessionInv db p.1 p.2

instance (db : DB) : Decidable (dbSessionInv db) := by
  unfold dbSessionInv sessionInv; infer_instance

/-- At most one active (non-cancelled) reservation per (user, session). -/
def uniqueActivePerUserSession (db : DB) : Prop :=
  ∀ userId sessionId : Nat,
    db.bookings.countP (fun b =>
      b.userId == userId && b.sessionId == sessionId && b.cancelledAt == none) ≤ 1

/-- Every booking row carries a non-negative guest count (enforced by the
API layer's `#[validate(range(min = 0, max = 10))]`). -/
def bookingsGuestsNonneg (db : DB) : Prop :=
  ∀ b ∈ db.bookings, 0 ≤ b.guestCount

instance (db : DB) : Decidable (bookingsGuestsNonneg db) := by
  unfold bookingsGuestsNonneg; infer_instance

/-- Replaying a subscription's ledger in timestamp order: the ledger lists
are append-ordered by `created_at`, so the replay is the running sum of the
subscription's entry amounts. -/
def ledgerReplay (db : DB) (subscriptionId : Nat) : Int :=
  ((db.ticketTransactions.filter (fun t => t.subscriptionId == some subscriptionId)).map
    TicketTransaction.amount).sum

/-- The ledger invariant of the spec's data model: replaying a
subscription's entries reproduces its current `tickets_remaining`. -/
def ledgerInv (db : DB) : Prop :=
  ∀ sub ∈ db.subscriptions, ledgerReplay db sub.id = sub.ticketsRemaining

instance (db : DB) : Decidable (ledgerInv db) := by
  unfold ledgerInv; infer_instance

/-! ## Characterisation of a successful reservation -/

/-- Elimination principle for a successful `create_booking_with_lock` run: the
checks it passed, the booking row it inserted, and the exact state effect of
each pricing branch. -/
theorem createBookingWithLock_ok_spec (db : DB) (u sid : Nat) (gc : Int) (pm : String)
    (nd now : Int) (code : String) (db' : DB) (bk : Booking)
    (h : createBookingWithLock db u sid gc pm nd now code = .ok (db', bk)) :
    ∃ session : Session,
      findSessionById db sid = some session ∧
      hasActiveBookingForSession db u sid = false ∧
      session.cancelled = false ∧
      ¬ session.date < nd ∧
      ¬ session.availableSlots < 1 + gc ∧
      bk.userId = u ∧ bk.sessionId = sid ∧ bk.guestCount = gc ∧
      bk.bookingCode = code ∧ bk.paymentMethod = pm ∧
      bk.cancelledAt = none ∧ bk.id = db.nextBookingId ∧
      bk.guestPricePaidVnd = session.priceVnd.getD 100000 * gc ∧
      bk.paymentStatus =
        (if bk.pricePaidVnd + session.priceVnd.getD 100000 * gc == 0 then "confirmed"
         else "pending") ∧
      bk.paymentDeadline =
        (if bk.pricePaidVnd + session.priceVnd.getD 100000 * gc > 0 then some (now + 30)
         else none) ∧
      db'.sessions = db.sessions.map (fun p =>
        if p.1 == sid then (p.1, { p.2 with availableSlots := p.2.availableSlots - (1 + gc) })
        else p) ∧
      db'.bookings = db.bookings ++ [bk] ∧
      db'.nextBookingId = db.nextBookingId + 1 ∧
      ((getActiveForBooking db u = none ∧ bk.ticketsUsed = 0 ∧
          bk.discountApplied = "none" ∧
          bk.pricePaidVnd = session.priceVnd.getD 100000 ∧
          db'.subscriptions = db.subscriptions ∧
          db'.ticketTransactions = db.ticketTransactions) ∨
       (∃ sub s', getActiveForBooking db u = some sub ∧ sub.ticketsRemaining > 0 ∧
          db.subscriptions.find? (fun s => s.id == sub.id && s.ticketsRemaining > 0) = some s' ∧
          bk.ticketsUsed = 1 ∧ bk.discountApplied = "ticket" ∧ bk.pricePaidVnd = 0 ∧
          db'.subscriptions = db.subscriptions.map (fun x =>
            if x.id == sub.id && x.ticketsRemaining > 0 then
              { x with ticketsRemaining := x.ticketsRemaining - 1 }
            else x) ∧
          db'.ticketTransactions = patchLastMatching
            (fun t => t.userId == u && t.subscriptionId == some sub.id &&
              t.transactionType == "used" && t.bookingId == none)
            (fun t => { t with bookingId := some bk.id })
            (db.ticketTransactions ++
              [{ userId := u, subscriptionId := some sub.id, bookingId := none,
                 transactionType := "used", amount := -1,
                 balanceAfter := s'.ticketsRemaining - 1, createdAt := db.nextCreatedAt }])) ∨
       (∃ sub, getActiveForBooking db u = some sub ∧ ¬ sub.ticketsRemaining > 0 ∧
          bk.ticketsUsed = 0 ∧ bk.discountApplied = "out_of_ticket" ∧
          bk.pricePaidVnd =
            Int.tdiv (session.priceVnd.getD 100000 * (100 - getOutOfTicketDiscount db)) 100 ∧
          db'.subscriptions = db.subscriptions ∧
          db'.ticketTransactions = db.ticketTransactions)) := by
  simp only [createBookingWithLock] at h
  cases hsess : findSessionById db sid with
  | none => simp only [hsess] at h; exact absurd h (by simp)
  | some session =>
  simp only [hsess] at h
  by_cases hact : hasActiveBookingForSession db u sid = true
  · rw [if_pos hact] at h; exact absurd h (by simp)
  rw [if_neg hact] at h
  by_cases hcanc : session.cancelled = true
  · rw [if_pos hcanc] at h; exact absurd h (by simp)
  rw [if_neg hcanc] at h
  by_cases hpast : session.date < nd
  · rw [if_pos hpast] at h; exact absurd h (by simp)
  rw [if_neg hpast] at h
  by_cases havail : session.availableSlots < 1 + gc
  · rw [if_pos havail] at h; exact absurd h (by simp)
  rw [if_neg havail] at h
  refine ⟨session, rfl, by simpa using hact, by simpa using hcanc, hpast, havail, ?_⟩
  cases hsub : getActiveForBooking db u with
  | none =>
    simp only [hsub] at h
    simp only [Except.ok.injEq, Prod.mk.injEq] at h
    obtain ⟨hdb, hbk⟩ := h
    subst hdb hbk
    exact ⟨rfl, rfl, rfl, rfl, rfl, rfl, rfl, rfl, rfl, rfl, rfl, rfl, rfl,
      Or.inl ⟨rfl, rfl, rfl, rfl, rfl, rfl⟩⟩
  | some sub =>
    simp only [hsub] at h
    by_cases htk : sub.ticketsRemaining > 0
    · rw [if_pos htk] at h
      cases hded : deductTicket db sub.id with
      | none => simp only [hded] at h; exact absurd h (by simp)
      | some pr =>
        obtain ⟨newBalance, dbA⟩ := pr
        simp only [hded] at h
        simp only [Except.ok.injEq, Prod.mk.injEq] at h
        obtain ⟨hdb, hbk⟩ := h
        subst hdb hbk
        simp only [deductTicket] at hded
        cases hfind : db.subscriptions.find? (fun s => s.id == sub.id && s.ticketsRemaining > 0) with
        | none => rw [hfind] at hded; exact absurd hded (by simp)
        | some s' =>
          rw [hfind] at hded
          simp only [Option.some.injEq, Prod.mk.injEq] at hded
          obtain ⟨hnb, hdbA⟩ := hded
          subst hnb hdbA
          exact ⟨rfl, rfl, rfl, rfl, rfl, rfl, rfl, rfl, rfl, rfl, rfl, rfl, rfl,
            Or.inr (Or.inl ⟨sub, s', rfl, htk, hfind, rfl, rfl, rfl, rfl, rfl⟩)⟩
    · rw [if_neg htk] at h
      simp only [Except.ok.injEq, Prod.mk.injEq] at h
      obtain ⟨hdb, hbk⟩ := h
      subst hdb hbk
      exact ⟨rfl, rfl, rfl, rfl, rfl, rfl, rfl, rfl, rfl, rfl, rfl, rfl, rfl,
        Or.inr (Or.inr ⟨sub, rfl, htk, rfl, rfl, rfl, rfl, rfl⟩)⟩

/-! ## Concrete fixtures used by witnesses and counterexamples -/

/-- A plain upcoming session: 2 courts × 6 players, no per-session price, no
per-session cancellation windows. -/
def fxSession : Session :=
  { date := 100, time := 600, courts := 2, maxPlayersPerCourt := some 6,
    totalSlots := 12, availableSlots := 12, priceVnd := none,
    dropInCancellationHours := none, subscriberCancellationHours := none,
    cancelled := false }

/-- A database holding just `fxSession` under id 1. -/
def fxDb : DB :=
  { sessions := [(1, fxSession)], bookings := [], subscriptions := [],
    ticketTransactions := [], configOutOfTicketDiscount := none,
    nextBookingId := 0, nextCreatedAt := 0 }

/-- An active subscription of user 1 holding one ticket. -/
def fxSub1 : Subscription :=
  { id := 7, userId := 1, status := "active", ticketsRemaining := 1 }

/-- `fxDb` plus user 1's one-ticket subscription. -/
def fxDbSub : DB := { fxDb with subscriptions := [fxSub1] }

/-- The booking row produced by the spec's pricing example (base 100000,
2 guests, subscriber with 1 ticket) on `fxDbSub`. -/
def fxBkSub : Booking :=
  { id := 0, userId := 1, sessionId := 1, bookingCode := "LB-AAAAA",
    guestCount := 2, ticketsUsed := 1, discountApplied := "ticket",
    pricePaidVnd := 0, guestPricePaidVnd := 200000, paymentMethod := "cash",
    paymentStatus := "pending", paymentDeadline := some 1030,
    cancelledAt := none }

/-- The database state after the spec's pricing example ran on `fxDbSub`. -/
def fxDbSubAfter : DB :=
  { sessions := [(1, { fxSession with availableSlots := 9 })],
    bookings := [fxBkSub],
    subscriptions := [{ fxSub1 with ticketsRemaining := 0 }],
    ticketTransactions := [
      { userId := 1, subscriptionId := some 7, bookingId := some 0,
        transactionType := "used", amount := -1, balanceAfter := 0,
        createdAt := 0 }],
    configOutOfTicketDiscount := none, nextBookingId := 1, nextCreatedAt := 1 }

/-! ## C3, C9, C10 — the Pricing Engine -/

/-- C3: pricing of a successful reservation.  With `base` the session's price
(default 100000) and `d` the configured out-of-ticket discount percent: no
active subscription → owner pays `base` with discount `none`; active
subscription with a ticket → exactly one ticket is consumed, owner pays 0,
discount `ticket`; active subscription without tickets → owner pays
`⌊base * (100 - d) / 100⌋`, discount `out_of_ticket`; guests always pay
`guestCount * base`.  (`totalOwed = ownerPrice + guestPrice` is the quantity
whose sign drives C9's payment state.) -/
theorem claim_C3_pricing (db : DB) (u sid : Nat) (gc : Int) (pm : String)
    (nd now : Int) (code : String) (db' : DB) (bk : Booking) (session : Session)
    (h : createBookingWithLock db u sid gc pm nd now code = .ok (db', bk))
    (hsess : findSessionById db sid = some session)
    (hbase : 0 ≤ session.priceVnd.getD 100000)
    (hdisc : getOutOfTicketDiscount db ≤ 100)
    (hwf : (db.subscriptions.map Subscription.id).Nodup) :
    bk.guestPricePaidVnd = session.priceVnd.getD 100000 * gc ∧
    (getActiveForBooking db u = none →
      bk.ticketsUsed = 0 ∧ bk.discountApplied = "none" ∧
      bk.pricePaidVnd = session.priceVnd.getD 100000 ∧
      db'.subscriptions = db.subscriptions) ∧
    (∀ sub, getActiveForBooking db u = some sub → 0 < sub.ticketsRemaining →
      bk.ticketsUsed = 1 ∧ bk.discountApplied = "ticket" ∧ bk.pricePaidVnd = 0 ∧
      ∀ s' ∈ db'.subscriptions, s'.id = sub.id →
        s'.ticketsRemaining = sub.ticketsRemaining - 1) ∧
    (∀ sub, getActiveForBooking db u = some sub → sub.ticketsRemaining = 0 →
      bk.ticketsUsed = 0 ∧ bk.discountApplied = "out_of_ticket" ∧
      bk.pricePaidVnd =
        session.priceVnd.getD 100000 * (100 - getOutOfTicketDiscount db) / 100 ∧
      db'.subscriptions = db.subscriptions) := by
  obtain ⟨sess, hsess', hact, hcanc, hpast, havail, hbu, hbs, hbg, hbc, hbp, hbca,
    hbid, hgp, hst, hdl, hsessions, hbookings, hnid, hcases⟩ :=
    createBookingWithLock_ok_spec db u sid gc pm nd now code db' bk h
  rw [hsess'] at hsess
  injection hsess with hsess
  subst hsess
  refine ⟨hgp, ?_, ?_, ?_⟩
  · intro hnone
    rcases hcases with ⟨-, ht, hd, hp, hsubs, -⟩ | ⟨sub, s', hsub, -, -⟩ | ⟨sub, hsub, -⟩
    · exact ⟨ht, hd, hp, hsubs⟩
    · rw [hnone] at hsub; exact absurd hsub (by simp)
    · rw [hnone] at hsub; exact absurd hsub (by simp)
  · intro sub hsub htk
    rcases hcases with ⟨hnone, -⟩ | ⟨sub0, s', hsub0, htk0, hfind, ht, hd, hp, hsubs, -⟩ |
      ⟨sub0, hsub0, htk0, -⟩
    · rw [hsub] at hnone; exact absurd hnone (by simp)
    · rw [hsub] at hsub0
      injection hsub0 with hsub0
      subst hsub0
      refine ⟨ht, hd, hp, ?_⟩
      intro sx hmem hid
      rw [hsubs] at hmem
      obtain ⟨x, hx, hpatch⟩ := List.mem_map.mp hmem
      have hsubmem : sub ∈ db.subscriptions :=
        List.mem_of_find?_eq_some hsub
      by_cases hcond : (x.id == sub.id && decide (x.ticketsRemaining > 0)) = true
      · rw [if_pos hcond] at hpatch
        simp only [Bool.and_eq_true, beq_iff_eq, decide_eq_true_eq] at hcond
        have hx_eq : x = sub :=
          List.inj_on_of_nodup_map hwf hx hsubmem hcond.1
        subst hx_eq
        rw [← hpatch]
      · rw [if_neg hcond] at hpatch
        subst hpatch
        have hx_eq : x = sub :=
          List.inj_on_of_nodup_map hwf hx hsubmem hid
        subst hx_eq
        exact absurd (by simp [htk]) hcond
    · rw [hsub] at hsub0
      injection hsub0 with hsub0
      subst hsub0
      exact absurd htk htk0
  · intro sub hsub htk
    rcases hcases with ⟨hnone, -⟩ | ⟨sub0, s', hsub0, htk0, -⟩ |
      ⟨sub0, hsub0, htk0, ht, hd, hp, hsubs, -⟩
    · rw [hsub] at hnone; exact absurd hnone (by simp)
    · rw [hsub] at hsub0
      injection hsub0 with hsub0
      subst hsub0
      rw [htk] at htk0
      exact absurd htk0 (by simp)
    · rw [hsub] at hsub0
      injection hsub0 with hsub0
      subst hsub0
      refine ⟨ht, hd, ?_, hsubs⟩
      rw [hp, Int.tdiv_eq_ediv]
      · exact Int.mul_nonneg hbase (by omega)
      · omega

/-- C3 witness: the spec's example on `fxDbSub` — base 100000, 2 guests,
subscriber with 1 ticket → owner 0, guests 200000, discount `ticket`, one
ticket consumed. -/
theorem claim_C3_pricing_witness :
    fxBkSub.guestPricePaidVnd = fxSession.priceVnd.getD 100000 * 2 ∧
    fxBkSub.ticketsUsed = 1 ∧ fxBkSub.discountApplied = "ticket" ∧
    fxBkSub.pricePaidVnd = 0 ∧
    ∀ s' ∈ fxDbSubAfter.subscriptions, s'.id = fxSub1.id →
      s'.ticketsRemaining = fxSub1.ticketsRemaining - 1 := by
  have spec := claim_C3_pricing fxDbSub 1 1 2 "cash" 50 1000 "LB-AAAAA"
    fxDbSubAfter fxBkSub fxSession (by rfl) (by decide) (by decide)
    (by decide) (by decide)
  obtain ⟨h1, h2, h3, h4⟩ := (spec.2.2.1 fxSub1 (by decide) (by decide))
  exact ⟨spec.1, h1, h2, h3, h4⟩

/-- C9: a successfully created reservation is `confirmed` with no payment
deadline when the total owed is zero, and `pending` with deadline
`now + 30` minutes when the total owed is positive. -/
theorem claim_C9_payment_state (db : DB) (u sid : Nat) (gc : Int) (pm : String)
    (nd now : Int) (code : String) (db' : DB) (bk : Booking)
    (h : createBookingWithLock db u sid gc pm nd now code = .ok (db', bk)) :
    (bk.pricePaidVnd + bk.guestPricePaidVnd = 0 →
      bk.paymentStatus = "confirmed" ∧ bk.paymentDeadline = none) ∧
    (0 < bk.pricePaidVnd + bk.guestPricePaidVnd →
      bk.paymentStatus = "pending" ∧ bk.paymentDeadline = some (now + 30)) := by
  obtain ⟨sess, hsess', hact, hcanc, hpast, havail, hbu, hbs, hbg, hbc, hbp, hbca,
    hbid, hgp, hst, hdl, -⟩ :=
    createBookingWithLock_ok_spec db u sid gc pm nd now code db' bk h
  rw [← hgp] at hst hdl
  constructor
  · intro hz
    refine ⟨?_, ?_⟩
    · rw [hst, if_pos (by simpa using hz)]
    · rw [hdl, if_neg (by omega)]
  · intro hpos
    refine ⟨?_, ?_⟩
    · rw [hst, if_neg (by simp; omega)]
    · rw [hdl, if_pos hpos]

/-- C9 witness: the example reservation owes 200000 > 0, so it is created
`pending` with deadline `now + 30 = 1030`. -/
theorem claim_C9_payment_state_witness :
    fxBkSub.paymentStatus = "pending" ∧ fxBkSub.paymentDeadline = some (1000 + 30) :=
  (claim_C9_payment_state fxDbSub 1 1 2 "cash" 50 1000 "LB-AAAAA"
    fxDbSubAfter fxBkSub (by rfl)).2 (by decide)

/-- C10 (implicit): when the session row has no per-session price
(`price_vnd IS NULL`), reservation pricing falls back to a base price of
100000 VND, used for the owner's slot in every branch and for every guest
slot; the spec never states this fallback. -/
theorem claim_C10_default_base_price (db : DB) (u sid : Nat) (gc : Int) (pm : String)
    (nd now : Int) (code : String) (db' : DB) (bk : Booking) (session : Session)
    (h : createBookingWithLock db u sid gc pm nd now code = .ok (db', bk))
    (hsess : findSessionById db sid = some session)
    (hprice : session.priceVnd = none) :
    bk.guestPricePaidVnd = 100000 * gc ∧
    (getActiveForBooking db u = none → bk.pricePaidVnd = 100000) ∧
    (∀ sub, getActiveForBooking db u = some sub → 0 < sub.ticketsRemaining →
      bk.pricePaidVnd = 0 ∧ bk.ticketsUsed = 1) ∧
    (∀ sub, getActiveForBooking db u = some sub → ¬ 0 < sub.ticketsRemaining →
      bk.pricePaidVnd = Int.tdiv (100000 * (100 - getOutOfTicketDiscount db)) 100) := by
  obtain ⟨sess, hsess', hact, hcanc, hpast, havail, hbu, hbs, hbg, hbc, hbp, hbca,
    hbid, hgp, hst, hdl, hsessions, hbookings, hnid, hcases⟩ :=
    createBookingWithLock_ok_spec db u sid gc pm nd now code db' bk h
  rw [hsess'] at hsess
  injection hsess with hsess
  subst hsess
  rw [hprice] at hgp
  refine ⟨hgp, ?_, ?_, ?_⟩
  · intro hnone
    rcases hcases with ⟨-, -, -, hp, -⟩ | ⟨sub, s', hsub, -⟩ | ⟨sub, hsub, -⟩
    · rw [hp, hprice]; rfl
    · rw [hnone] at hsub; exact absurd hsub (by simp)
    · rw [hnone] at hsub; exact absurd hsub (by simp)
  · intro sub hsub htk
    rcases hcases with ⟨hnone, -⟩ | ⟨sub0, s', hsub0, htk0, hfind, ht, hd, hp, -⟩ |
      ⟨sub0, hsub0, htk0, -⟩
    · rw [hsub] at hnone; exact absurd hnone (by simp)
    · exact ⟨hp, ht⟩
    · rw [hsub] at hsub0
      injection hsub0 with hsub0
      subst hsub0
      exact absurd htk htk0
  · intro sub hsub htk
    rcases hcases with ⟨hnone, -⟩ | ⟨sub0, s', hsub0, htk0, -⟩ |
      ⟨sub0, hsub0, htk0, ht, hd, hp, -⟩
    · rw [hsub] at hnone; exact absurd hnone (by simp)
    · rw [hsub] at hsub0
      injection hsub0 with hsub0
      subst hsub0
      exact absurd htk0 htk
    · rw [hp, hprice]; rfl

/-- C10 witness: the subscriber-with-ticket example on a priceless session
charges guests `100000 * 2` and the owner 0. -/
theorem claim_C10_default_base_price_witness :
    fxBkSub.guestPricePaidVnd = 100000 * 2 ∧ fxBkSub.pricePaidVnd = 0 := by
  have spec := claim_C10_default_base_price fxDbSub 1 1 2 "cash" 50 1000 "LB-AAAAA"
    fxDbSubAfter fxBkSub fxSession (by rfl) (by decide) (by decide)
  exact ⟨spec.1, (spec.2.2.1 fxSub1 (by decide) (by decide)).1⟩


/-! ## Frame lemmas for the pool-level primitives -/

/-- Complete description of a successful `restore_ticket`. -/
theorem restoreTicket_some_spec (db : DB) (sid : Nat) (nb : Int) (db' : DB)
    (h : restoreTicket db sid = some (nb, db')) :
    db' = { db with subscriptions := db.subscriptions.map (fun x =>
        if x.id == sid then { x with ticketsRemaining := x.ticketsRemaining + 1 }
        else x) } ∧
    ∃ s, db.subscriptions.find? (fun x => x.id == sid) = some s ∧
      nb = s.ticketsRemaining + 1 := by
  simp only [restoreTicket] at h
  cases hf : db.subscriptions.find? (fun x => x.id == sid) with
  | none => rw [hf] at h; exact absurd h (by simp)
  | some s =>
    rw [hf] at h
    simp only [Option.some.injEq, Prod.mk.injEq] at h
    exact ⟨h.2.symm, s, rfl, h.1.symm⟩

/-- The restore block never touches sessions, bookings, or the booking-id
generator. -/
theorem restoreTicketAndLog_frame (fF fR fC : Bool) (db : DB) (u bid : Nat) (tu : Int) :
    (restoreTicketAndLog fF fR fC db u bid tu).bookings = db.bookings ∧
    (restoreTicketAndLog fF fR fC db u bid tu).sessions = db.sessions ∧
    (restoreTicketAndLog fF fR fC db u bid tu).nextBookingId = db.nextBookingId := by
  unfold restoreTicketAndLog
  repeat' split
  all_goals first
    | exact ⟨rfl, rfl, rfl⟩
    | (obtain ⟨hdbR, -⟩ := restoreTicket_some_spec _ _ _ _ (by assumption)
       subst hdbR
       exact ⟨rfl, rfl, rfl⟩)

/-! ## C7 — cancellation-window enforcement -/

/-- C7: for an owner cancelling a not-yet-cancelled reservation (all storage
statements succeeding), with the window taken from the session's subscriber
hours (default 24) when the requester holds an active subscription at
cancellation time and from the drop-in hours (default 48) otherwise, the
cancellation fails with `BadRequest` exactly when
`now > sessionStart - windowHours`; the error message reports the (clamped)
hours until session start, the required window, and which window applied;
the state is then unchanged; otherwise the cancellation succeeds and returns
the cancelled reservation. -/
theorem claim_C7_cancellation_window (db : DB) (bookingId userId : Nat) (now : Int)
    (bk : Booking) (session : Session)
    (hbk : findBookingById db bookingId = some bk)
    (howner : bk.userId = userId)
    (hnc : bk.cancelledAt = none)
    (hsess : findSessionById db bk.sessionId = some session) :
    ((cancelBooking noCancelFaults db bookingId userId now).1 =
        .error (.badRequest (cancellationDeadlineMessage
          (hasActiveSubscription db userId)
          (if hasActiveSubscription db userId then
            session.subscriberCancellationHours.getD defaultSubscriberCancellationHours
          else session.dropInCancellationHours.getD defaultDropInCancellationHours)
          (Int.tdiv (session.date * 1440 + session.time - now) 60)))
      ↔ now > session.date * 1440 + session.time -
          (if hasActiveSubscription db userId then
            session.subscriberCancellationHours.getD defaultSubscriberCancellationHours
          else session.dropInCancellationHours.getD defaultDropInCancellationHours) * 60) ∧
    (now > session.date * 1440 + session.time -
        (if hasActiveSubscription db userId then
          session.subscriberCancellationHours.getD defaultSubscriberCancellationHours
        else session.dropInCancellationHours.getD defaultDropInCancellationHours) * 60 →
      (cancelBooking noCancelFaults db bookingId userId now).2 = db) ∧
    (¬ now > session.date * 1440 + session.time -
        (if hasActiveSubscription db userId then
          session.subscriberCancellationHours.getD defaultSubscriberCancellationHours
        else session.dropInCancellationHours.getD defaultDropInCancellationHours) * 60 →
      (cancelBooking noCancelFaults db bookingId userId now).1 =
        .ok { bk with cancelledAt := some now, paymentStatus := "cancelled" }) := by
  simp only [cancelBooking, noCancelFaults]
  simp only [hbk, hsess]
  rw [if_neg (by simp), if_neg (by simp [howner]), if_neg (by simp [hnc]),
    if_neg (by simp), if_neg (by simp)]
  by_cases hdead : now > session.date * 1440 + session.time -
      (if hasActiveSubscription db userId then
        session.subscriberCancellationHours.getD defaultSubscriberCancellationHours
      else session.dropInCancellationHours.getD defaultDropInCancellationHours) * 60
  · rw [if_pos hdead]
    exact ⟨⟨fun _ => hdead, fun _ => rfl⟩, fun _ => rfl, fun hcon => absurd hdead hcon⟩
  · rw [if_neg hdead]
    have hframe := restoreTicketAndLog_frame false false false db userId bookingId
      bk.ticketsUsed
    have hrow : cancelBookingRow
        (restoreTicketAndLog false false false db userId bookingId bk.ticketsUsed)
        bookingId now =
        some ({ bk with cancelledAt := some now, paymentStatus := "cancelled" },
          { restoreTicketAndLog false false false db userId bookingId bk.ticketsUsed with
              bookings := (restoreTicketAndLog false false false db userId bookingId
                bk.ticketsUsed).bookings.map (fun x =>
                  if x.id == bookingId then
                    { x with cancelledAt := some now, paymentStatus := "cancelled" }
                  else x) }) := by
      simp only [cancelBookingRow, hframe.1]
      rw [show db.bookings.find? (fun b => b.id == bookingId) = some bk from hbk]
    rw [if_neg (by simp)]
    simp only [hrow]
    rw [if_neg (by simp)]
    exact ⟨⟨fun hres => absurd hres (by simp), fun hcon => absurd hcon hdead⟩,
      fun hcon => absurd hcon hdead, fun _ => rfl⟩

/-! ## More fixtures: a pending ticket-paid reservation -/

/-- A pending reservation of user 1 for session 1 that consumed one ticket
and has payment deadline 10. -/
def fxBkPending : Booking :=
  { id := 0, userId := 1, sessionId := 1, bookingCode := "LB-00000",
    guestCount := 0, ticketsUsed := 1, discountApplied := "ticket",
    pricePaidVnd := 0, guestPricePaidVnd := 100000, paymentMethod := "cash",
    paymentStatus := "pending", paymentDeadline := some 10, cancelledAt := none }

/-- User 1's active subscription after its single ticket was spent. -/
def fxSubSpent : Subscription :=
  { id := 7, userId := 1, status := "active", ticketsRemaining := 0 }

/-- Ledger: the grant of the one ticket. -/
def fxTnGrant : TicketTransaction :=
  { userId := 1, subscriptionId := some 7, bookingId := none,
    transactionType := "grant", amount := 1, balanceAfter := 1, createdAt := 0 }

/-- Ledger: the ticket spent on `fxBkPending`. -/
def fxTnUsed : TicketTransaction :=
  { userId := 1, subscriptionId := some 7, bookingId := some 0,
    transactionType := "used", amount := -1, balanceAfter := 0, createdAt := 1 }

/-- State with the pending ticket-paid reservation `fxBkPending` booked into
session 1 (11 of 12 slots left) and a consistent ledger. -/
def fxDbExpired : DB :=
  { sessions := [(1, { fxSession with availableSlots := 11 })],
    bookings := [fxBkPending],
    subscriptions := [fxSubSpent],
    ticketTransactions := [fxTnGrant, fxTnUsed],
    configOutOfTicketDiscount := none, nextBookingId := 1, nextCreatedAt := 2 }

/-- `fxSession` with 11 slots left and an explicit 24-hour subscriber
cancellation window. -/
def fxSessionWin : Session :=
  { date := 100, time := 600, courts := 2, maxPlayersPerCourt := some 6,
    totalSlots := 12, availableSlots := 11, priceVnd := none,
    dropInCancellationHours := none, subscriberCancellationHours := some 24,
    cancelled := false }

/-- `fxDbExpired` with the 24-hour subscriber cancellation window on the
session. -/
def fxDbCancelWin : DB :=
  { fxDbExpired with sessions := [(1, fxSessionWin)] }

/-- C7 witness: session starts at minute 144600, `now` is 10 hours earlier,
the subscriber window is 24 hours — cancellation fails with `BadRequest`
reporting 10 hours until session and 24 required. -/
theorem claim_C7_cancellation_window_witness :
    (cancelBooking noCancelFaults fxDbCancelWin 0 1 144000).1 =
      .error (.badRequest (cancellationDeadlineMessage true 24 10)) :=
  (claim_C7_cancellation_window fxDbCancelWin 0 1 144000 fxBkPending
    fxSessionWin (by decide) rfl rfl (by decide)).1.mpr (by decide)

/-! ## C8 — order of the creation rejection checks -/

/-- A cancelled session for which user 1 nevertheless still holds an active
reservation. -/
def fxDbDup : DB :=
  { sessions := [(1, { fxSession with cancelled := true })],
    bookings := [fxBkPending],
    subscriptions := [], ticketTransactions := [],
    configOutOfTicketDiscount := none, nextBookingId := 1, nextCreatedAt := 0 }

/-- C8 counterexample: against a cancelled session for which the user already
holds an active reservation, `create_booking_with_lock` returns `Conflict`
(the duplicate-reservation check runs first), not the `BadRequest` the claim
derives from its check order. -/
theorem claim_C8_counterexample :
    findSessionById fxDbDup 1 = some { fxSession with cancelled := true } ∧
    hasActiveBookingForSession fxDbDup 1 1 = true ∧
    createBookingWithLock fxDbDup 1 1 0 "cash" 50 1000 "LB-C" =
      .error (.conflict "You already have a booking for this session") :=
  ⟨rfl, by decide, by rfl⟩

/-- C8 (amended): the code checks in the order duplicate-reservation
(`Conflict`), then cancelled session (`BadRequest`), then past session
(`BadRequest`), then capacity (`Conflict`) — so a cancelled session combined
with an existing active reservation yields `Conflict`, not `BadRequest`. -/
theorem claim_C8_check_order_amended (db : DB) (u sid : Nat) (gc : Int) (pm : String)
    (nd now : Int) (code : String) (session : Session)
    (hsess : findSessionById db sid = some session) :
    (hasActiveBookingForSession db u sid = true →
      createBookingWithLock db u sid gc pm nd now code =
        .error (.conflict "You already have a booking for this session")) ∧
    (hasActiveBookingForSession db u sid = false → session.cancelled = true →
      createBookingWithLock db u sid gc pm nd now code =
        .error (.badRequest "Session is cancelled")) ∧
    (hasActiveBookingForSession db u sid = false → session.cancelled = false →
      session.date < nd →
      createBookingWithLock db u sid gc pm nd now code =
        .error (.badRequest "Session is in the past")) ∧
    (hasActiveBookingForSession db u sid = false → session.cancelled = false →
      ¬ session.date < nd → session.availableSlots < 1 + gc →
      createBookingWithLock db u sid gc pm nd now code =
        .error (.conflict ("Not enough slots available. Need " ++ toString (1 + gc) ++
          ", have " ++ toString session.availableSlots))) := by
  simp only [createBookingWithLock, hsess]
  refine ⟨fun hact => ?_, fun hact hcanc => ?_, fun hact hcanc hpast => ?_,
    fun hact hcanc hpast havail => ?_⟩
  · rw [if_pos hact]
  · rw [if_neg (by simp [hact]), if_pos hcanc]
  · rw [if_neg (by simp [hact]), if_neg (by simp [hcanc]), if_pos hpast]
  · rw [if_neg (by simp [hact]), if_neg (by simp [hcanc]), if_neg hpast, if_pos havail]

/-- C8 amended witness: the amended order at the counterexample state —
duplicate beats the cancelled-session rejection. -/
theorem claim_C8_check_order_amended_witness :
    createBookingWithLock fxDbDup 1 1 0 "cash" 50 1000 "LB-C" =
      .error (.conflict "You already have a booking for this session") :=
  (claim_C8_check_order_amended fxDbDup 1 1 0 "cash" 50 1000 "LB-C"
    { fxSession with cancelled := true } rfl).1 (by decide)

/-- Exact effect of the restore block when the booking consumed a ticket, the
user has a subscription row, and no statement faults: the first matching
subscription row gains one ticket and a `restored` ledger row is appended. -/
theorem restoreTicketAndLog_noFault_spec (db : DB) (u bid : Nat) (tu : Int)
    (sub : Subscription)
    (htu : 0 < tu) (hsub : findSubscriptionByUserId db u = some sub) :
    ∃ s', db.subscriptions.find? (fun x => x.id == sub.id) = some s' ∧
      restoreTicketAndLog false false false db u bid tu =
        { db with
            subscriptions := db.subscriptions.map (fun x =>
              if x.id == sub.id then
                { x with ticketsRemaining := x.ticketsRemaining + 1 }
              else x),
            ticketTransactions := db.ticketTransactions ++
              [{ userId := u, subscriptionId := some sub.id, bookingId := some bid,
                 transactionType := "restored", amount := 1,
                 balanceAfter := s'.ticketsRemaining + 1,
                 createdAt := db.nextCreatedAt }],
            nextCreatedAt := db.nextCreatedAt + 1 } := by
  have hmem : sub ∈ db.subscriptions := List.mem_of_find?_eq_some hsub
  have hfind : (db.subscriptions.find? (fun x => x.id == sub.id)).isSome :=
    List.find?_isSome.mpr ⟨sub, hmem, by simp⟩
  cases hf : db.subscriptions.find? (fun x => x.id == sub.id) with
  | none => rw [hf] at hfind; exact absurd hfind (by simp)
  | some s' =>
    refine ⟨s', rfl, ?_⟩
    unfold restoreTicketAndLog
    rw [if_pos htu, if_neg (by simp)]
    simp only [hsub]
    rw [if_neg (by simp)]
    have hres : restoreTicket db sub.id =
        some (s'.ticketsRemaining + 1,
          { db with subscriptions := db.subscriptions.map (fun x =>
              if x.id == sub.id then
                { x with ticketsRemaining := x.ticketsRemaining + 1 }
              else x) }) := by
      simp only [restoreTicket, hf]
    simp only [hres]
    rw [if_neg (by simp)]
    rfl

/-! ## C5 — cancellation is not transactional -/

/-- The fault oracle in which only the reservation-cancelling UPDATE fails. -/
def fxCancelRowFault : CancelFaults := { cancelRow := true }

/-- C5 counterexample: cancelling `fxBkPending` (which consumed a ticket)
when the cancellation UPDATE fails after the ticket restore succeeded: an
error is returned, yet the restored ticket (balance 0 → 1) and its ledger
row remain persisted while the reservation is still pending — a partial
state, contradicting the all-or-nothing claim. -/
theorem claim_C5_counterexample :
    (cancelBooking fxCancelRowFault fxDbExpired 0 1 20).1 =
      .error (.internal "cancel_booking") ∧
    (cancelBooking fxCancelRowFault fxDbExpired 0 1 20).2.subscriptions =
      [{ fxSubSpent with ticketsRemaining := 1 }] ∧
    (cancelBooking fxCancelRowFault fxDbExpired 0 1 20).2.bookings =
      fxDbExpired.bookings ∧
    (cancelBooking fxCancelRowFault fxDbExpired 0 1 20).2.sessions =
      fxDbExpired.sessions ∧
    (cancelBooking fxCancelRowFault fxDbExpired 0 1 20).2 ≠ fxDbExpired := by
  refine ⟨by rfl, by rfl, by rfl, by rfl, by decide⟩

/-- C5 (amended): `cancel_booking` runs every storage statement directly on
the pool, with no enclosing transaction: when the statement marking the
reservation cancelled fails after the ticket restore succeeded, the restore
(balance increment and appended ledger row) remains persisted, the
reservation stays un-cancelled, no slots are released, and an `Internal`
error is returned — a partial state, not all-or-nothing. -/
theorem claim_C5_cancel_not_atomic_amended (db : DB) (bookingId userId : Nat)
    (now : Int) (bk : Booking) (session : Session) (sub : Subscription)
    (hbk : findBookingById db bookingId = some bk)
    (howner : bk.userId = userId)
    (hnc : bk.cancelledAt = none)
    (hsess : findSessionById db bk.sessionId = some session)
    (hdead : ¬ now > session.date * 1440 + session.time -
        (if hasActiveSubscription db userId then
          session.subscriberCancellationHours.getD defaultSubscriberCancellationHours
        else session.dropInCancellationHours.getD defaultDropInCancellationHours) * 60)
    (htu : 0 < bk.ticketsUsed)
    (hsub : findSubscriptionByUserId db userId = some sub) :
    (cancelBooking fxCancelRowFault db bookingId userId now).1 =
      .error (.internal "cancel_booking") ∧
    (cancelBooking fxCancelRowFault db bookingId userId now).2.bookings =
      db.bookings ∧
    (cancelBooking fxCancelRowFault db bookingId userId now).2.sessions =
      db.sessions ∧
    (cancelBooking fxCancelRowFault db bookingId userId now).2.subscriptions =
      db.subscriptions.map (fun x =>
        if x.id == sub.id then { x with ticketsRemaining := x.ticketsRemaining + 1 }
        else x) := by
  obtain ⟨s', hfind, hblock⟩ :=
    restoreTicketAndLog_noFault_spec db userId bookingId bk.ticketsUsed sub htu hsub
  simp only [cancelBooking, fxCancelRowFault]
  simp only [hbk, hsess]
  rw [if_neg (by simp), if_neg (by simp [howner]), if_neg (by simp [hnc]),
    if_neg (by simp), if_neg (by simp), if_neg hdead]
  simp only [hblock, eq_self_iff_true, if_true]
  exact ⟨trivial, trivial, trivial, trivial⟩

/-- C5 amended witness: the amended description at the concrete state of the
counterexample. -/
theorem claim_C5_cancel_not_atomic_amended_witness :
    (cancelBooking fxCancelRowFault fxDbExpired 0 1 20).1 =
      .error (.internal "cancel_booking") ∧
    (cancelBooking fxCancelRowFault fxDbExpired 0 1 20).2.bookings =
      fxDbExpired.bookings ∧
    (cancelBooking fxCancelRowFault fxDbExpired 0 1 20).2.sessions =
      fxDbExpired.sessions ∧
    (cancelBooking fxCancelRowFault fxDbExpired 0 1 20).2.subscriptions =
      fxDbExpired.subscriptions.map (fun x =>
        if x.id == fxSubSpent.id then
          { x with ticketsRemaining := x.ticketsRemaining + 1 }
        else x) :=
  claim_C5_cancel_not_atomic_amended fxDbExpired 0 1 20 fxBkPending
    { fxSession with availableSlots := 11 } fxSubSpent (by decide) rfl rfl
    (by decide) (by decide) (by decide) (by decide)

/-! ## Ledger-replay lemmas -/

/-- Appending one ledger row adds its amount to exactly the replay of the
subscription it references. -/
theorem replay_append (l : List TicketTransaction) (e : TicketTransaction) (i : Nat) :
    (((l ++ [e]).filter (fun t => t.subscriptionId == some i)).map
      TicketTransaction.amount).sum =
    ((l.filter (fun t => t.subscriptionId == some i)).map
      TicketTransaction.amount).sum +
    (if e.subscriptionId == some i then e.amount else 0) := by
  rw [List.filter_append]
  simp only [List.filter_cons, List.filter_nil]
  split
  · simp
  · simp

/-- Back-patching a ledger row's `booking_id` changes no replay. -/
theorem replay_patchLastMatching (p : TicketTransaction → Bool) (n : Nat)
    (l : List TicketTransaction) (i : Nat) :
    (((patchLastMatching p (fun t => { t with bookingId := some n }) l).filter
        (fun t => t.subscriptionId == some i)).map TicketTransaction.amount).sum =
    ((l.filter (fun t => t.subscriptionId == some i)).map
      TicketTransaction.amount).sum := by
  induction l with
  | nil => rfl
  | cons t rest ih =>
    simp only [patchLastMatching]
    split
    · simp only [List.filter_cons]
      split
      · simp [ih]
      · simp [ih]
    · split
      · simp only [List.filter_cons]
        split
        · simp
        · simp
      · rfl

/-- The ledger invariant only looks at the subscription and ledger tables. -/
theorem ledgerInv_of_eq (db db' : DB)
    (hs : db'.subscriptions = db.subscriptions)
    (ht : db'.ticketTransactions = db.ticketTransactions)
    (h : ledgerInv db) : ledgerInv db' := by
  intro sub hmem
  rw [hs] at hmem
  have := h sub hmem
  unfold ledgerReplay at this ⊢
  rw [ht]
  exact this

/-- Complete description of a successful `cancel_booking` row UPDATE. -/
theorem cancelBookingRow_some_spec (db : DB) (id : Nat) (now : Int)
    (rbk : Booking) (db2 : DB)
    (h : cancelBookingRow db id now = some (rbk, db2)) :
    db2 = { db with bookings := db.bookings.map (fun x =>
        if x.id == id then { x with cancelledAt := some now, paymentStatus := "cancelled" }
        else x) } ∧
    ∃ b, db.bookings.find? (fun b => b.id == id) = some b ∧
      rbk = { b with cancelledAt := some now, paymentStatus := "cancelled" } := by
  simp only [cancelBookingRow] at h
  cases hf : db.bookings.find? (fun b => b.id == id) with
  | none => rw [hf] at h; exact absurd h (by simp)
  | some b =>
    rw [hf] at h
    simp only [Option.some.injEq, Prod.mk.injEq] at h
    exact ⟨h.2.symm, b, rfl, h.1.symm⟩

/-- The fault-free restore block preserves the ledger-replay invariant: the
balance increment and the `restored` ledger row land together. -/
theorem restoreTicketAndLog_preserves_ledgerInv (db : DB) (u bid : Nat) (tu : Int)
    (h : ledgerInv db) :
    ledgerInv (restoreTicketAndLog false false false db u bid tu) := by
  by_cases htu : 0 < tu
  · cases hsub : findSubscriptionByUserId db u with
    | none =>
      unfold restoreTicketAndLog
      rw [if_pos htu, if_neg (by simp)]
      simp only [hsub]
      exact h
    | some sub =>
      obtain ⟨s', hfind, hblock⟩ :=
        restoreTicketAndLog_noFault_spec db u bid tu sub htu hsub
      rw [hblock]
      intro sub' hmem
      obtain ⟨x, hx, hpatch⟩ := List.mem_map.mp hmem
      unfold ledgerReplay
      simp only
      rw [replay_append]
      have hr := h x hx
      unfold ledgerReplay at hr
      by_cases hid : x.id = sub.id
      · rw [if_pos (by simp [hid])] at hpatch
        subst hpatch
        simp only [beq_iff_eq, Option.some.injEq]
        rw [if_pos hid.symm]
        simp only [hid] at hr ⊢
        omega
      · rw [if_neg (by simp [hid])] at hpatch
        subst hpatch
        simp only [beq_iff_eq, Option.some.injEq]
        rw [if_neg (fun hc => hid hc.symm)]
        omega
  · unfold restoreTicketAndLog
    rw [if_neg htu]
    exact h

/-! ## C6 — the ticket ledger replay invariant -/

/-- The fault oracle in which only the ledger INSERT fails. -/
def fxLedgerFault : CancelFaults := { createTransactionStmt := true }

/-- C6 counterexample: the ledger append during cancellation is a separate
pool statement whose failure is swallowed (`let _ =`): starting from a state
whose ledger replays correctly, cancelling the ticket-paid reservation with
a failing ledger INSERT persists the balance increment without any ledger
row — afterwards the replay no longer reproduces `tickets_remaining`. -/
theorem claim_C6_counterexample :
    ledgerInv fxDbExpired ∧
    (cancelBooking fxLedgerFault fxDbExpired 0 1 20).2.subscriptions =
      [{ fxSubSpent with ticketsRemaining := 1 }] ∧
    (cancelBooking fxLedgerFault fxDbExpired 0 1 20).2.ticketTransactions =
      fxDbExpired.ticketTransactions ∧
    ¬ ledgerInv (cancelBooking fxLedgerFault fxDbExpired 0 1 20).2 := by
  refine ⟨by decide, by rfl, by rfl, by decide⟩

/-- C6 (amended): the creation transaction deducts the ticket and appends the
`used` ledger row in one atomic transaction, so it preserves the replay
invariant; cancellation restores the ticket and appends the `restored` row
as two separate pool statements — the invariant is preserved only on the
fault-free path (and is broken when the append fails, per the
counterexample). -/
theorem claim_C6_ledger_replay_amended :
    (∀ (db : DB) (u sid : Nat) (gc : Int) (pm : String) (nd now : Int)
       (code : String) (db' : DB) (bk : Booking),
      (db.subscriptions.map Subscription.id).Nodup → ledgerInv db →
      createBookingWithLock db u sid gc pm nd now code = .ok (db', bk) →
      ledgerInv db') ∧
    (∀ (db : DB) (bookingId userId : Nat) (now : Int),
      ledgerInv db →
      ledgerInv (cancelBooking noCancelFaults db bookingId userId now).2) := by
  constructor
  · intro db u sid gc pm nd now code db' bk hwf h hok
    obtain ⟨sess, hsess', hact, hcanc, hpast, havail, hbu, hbs, hbg, hbc, hbp, hbca,
      hbid, hgp, hst, hdl, hsessions, hbookings, hnid, hcases⟩ :=
      createBookingWithLock_ok_spec db u sid gc pm nd now code db' bk hok
    rcases hcases with ⟨-, -, -, -, hsubs, htt⟩ |
      ⟨sub, s', hsub, htk, hfind, -, -, -, hsubs, htt⟩ | ⟨sub, hsub, -, -, -, -, hsubs, htt⟩
    · exact ledgerInv_of_eq db db' hsubs htt h
    · intro sub' hmem
      rw [hsubs] at hmem
      obtain ⟨x, hx, hpatch⟩ := List.mem_map.mp hmem
      unfold ledgerReplay
      rw [htt, replay_patchLastMatching, replay_append]
      have hr := h x hx
      unfold ledgerReplay at hr
      have hsubmem : sub ∈ db.subscriptions := List.mem_of_find?_eq_some hsub
      by_cases hcond : (x.id == sub.id && decide (x.ticketsRemaining > 0)) = true
      · rw [if_pos hcond] at hpatch
        subst hpatch
        simp only [Bool.and_eq_true, beq_iff_eq, decide_eq_true_eq] at hcond
        simp only [beq_iff_eq, Option.some.injEq]
        rw [if_pos hcond.1.symm]
        simp only [hcond.1] at hr ⊢
        omega
      · rw [if_neg hcond] at hpatch
        subst hpatch
        simp only [beq_iff_eq, Option.some.injEq]
        rw [if_neg ?hne]
        · omega
        case hne =>
          intro hc
          have hx_eq : x = sub := List.inj_on_of_nodup_map hwf hx hsubmem hc.symm
          subst hx_eq
          exact hcond (by simp [htk])
    · exact ledgerInv_of_eq db db' hsubs htt h
  · intro db bookingId userId now h
    simp only [cancelBooking, noCancelFaults]
    rw [if_neg (by simp)]
    cases hbk : findBookingById db bookingId with
    | none => exact h
    | some bk =>
      simp only
      split
      · exact h
      split
      · exact h
      rw [if_neg (by simp)]
      cases hsess : findSessionById db bk.sessionId with
      | none => exact h
      | some session =>
        simp only
        rw [if_neg (by simp)]
        have hblockInv : ledgerInv
            (restoreTicketAndLog false false false db userId bookingId bk.ticketsUsed) :=
          restoreTicketAndLog_preserves_ledgerInv db userId bookingId bk.ticketsUsed h
        by_cases hsubq : hasActiveSubscription db userId = true <;>
          simp only [hsubq, if_true, Bool.false_eq_true, if_false] <;>
        · split
          · exact h
          cases hrow : cancelBookingRow
              (restoreTicketAndLog false false false db userId bookingId bk.ticketsUsed)
              bookingId now with
          | none => exact hblockInv
          | some pr =>
            obtain ⟨rbk, db2⟩ := pr
            simp only
            obtain ⟨hdb2, -⟩ := cancelBookingRow_some_spec _ _ _ _ _ hrow
            subst hdb2
            exact ledgerInv_of_eq _ _ rfl rfl hblockInv

/-- `fxDbSub` with the matching `grant` ledger row, so that the ledger
replays correctly before the example booking. -/
def fxDbSubL : DB :=
  { fxDbSub with ticketTransactions := [fxTnGrant], nextCreatedAt := 1 }

/-- The state after the example booking ran on `fxDbSubL`. -/
def fxDbSubLAfter : DB :=
  { sessions := [(1, { fxSession with availableSlots := 9 })],
    bookings := [fxBkSub],
    subscriptions := [{ fxSub1 with ticketsRemaining := 0 }],
    ticketTransactions := [fxTnGrant, fxTnUsed],
    configOutOfTicketDiscount := none, nextBookingId := 1, nextCreatedAt := 2 }

/-- C6 amended witness: both preservation parts at concrete states — the
example creation keeps the ledger consistent, and a fault-free cancellation
of `fxBkPending` keeps it consistent. -/
theorem claim_C6_ledger_replay_amended_witness :
    ledgerInv fxDbSubLAfter ∧
    ledgerInv (cancelBooking noCancelFaults fxDbExpired 0 1 20).2 :=
  ⟨claim_C6_ledger_replay_amended.1 fxDbSubL 1 1 2 "cash" 50 1000 "LB-AAAAA"
      fxDbSubLAfter fxBkSub (by decide) (by decide) (by rfl),
   claim_C6_ledger_replay_amended.2 fxDbExpired 0 1 20 (by decide)⟩

/-! ## C4 — Expiry Reaper idempotence -/

/-- The reaper fault oracle in which only the cancellation UPDATE fails. -/
def fxReleaseCancelFault : ReleaseFaults := { cancelRow := true }

/-- C4 counterexample: the reaper restores the ticket before marking the
reservation cancelled, as separate pool statements.  Run 1 (cancellation
UPDATE fails) restores the ticket but leaves the reservation pending; run 2
(fault-free) finds the same reservation again and restores the same consumed
ticket a second time — balance goes 0 → 1 → 2 for a single consumed ticket,
refuting "never restores its consumed ticket more than once" for re-runs
after a partial failure. -/
theorem claim_C4_counterexample :
    fxBkPending.ticketsUsed = 1 ∧
    (releaseUnpaidBookings (fun _ => fxReleaseCancelFault) fxDbExpired 20).subscriptions =
      [{ fxSubSpent with ticketsRemaining := 1 }] ∧
    (releaseUnpaidBookings (fun _ => fxReleaseCancelFault) fxDbExpired 20).bookings =
      fxDbExpired.bookings ∧
    (releaseUnpaidBookings (fun _ => noReleaseFaults)
        (releaseUnpaidBookings (fun _ => fxReleaseCancelFault) fxDbExpired 20)
        20).subscriptions =
      [{ fxSubSpent with ticketsRemaining := 2 }] :=
  ⟨rfl, by rfl, by rfl, by rfl⟩

/-- One fault-free reaper iteration on `b`: every row sharing `b`'s id is
marked cancelled (or the list is untouched when no row has that id). -/
theorem releaseOne_noFault_bookings (db : DB) (b : Booking) (now : Int) :
    (releaseOne noReleaseFaults db b now).bookings =
      match db.bookings.find? (fun x => x.id == b.id) with
      | none => db.bookings
      | some _ => db.bookings.map (fun x =>
          if x.id == b.id then
            { x with cancelledAt := some now, paymentStatus := "cancelled" }
          else x) := by
  obtain ⟨hb, hs, hn⟩ := restoreTicketAndLog_frame false false false db b.userId b.id
    b.ticketsUsed
  simp only [releaseOne, noReleaseFaults]
  rw [if_neg (by simp)]
  cases hrow : cancelBookingRow
      (restoreTicketAndLog false false false db b.userId b.id b.ticketsUsed)
      b.id now with
  | none =>
    simp only [cancelBookingRow] at hrow
    cases hf : (restoreTicketAndLog false false false db b.userId b.id
        b.ticketsUsed).bookings.find? (fun x => x.id == b.id) with
    | none =>
      rw [hb] at hf
      rw [hf, hb]
    | some x => rw [hf] at hrow; exact absurd hrow (by simp)
  | some pr =>
    obtain ⟨rbk, db2⟩ := pr
    obtain ⟨hdb2, x, hfind, -⟩ := cancelBookingRow_some_spec _ _ _ _ _ hrow
    subst hdb2
    rw [hb] at hfind
    rw [hfind]
    simp only [Bool.false_eq_true, if_false, incrementAvailableSlots, hb]

/-- After a fault-free reaper pass over `bs` (each id present in the store),
every booking row either survives untouched with an id distinct from every
processed booking, or is marked cancelled. -/
theorem sweep_cancels (now : Int) (bs : List Booking) (db : DB)
    (hpres : ∀ b ∈ bs, ∃ x ∈ db.bookings, x.id = b.id) :
    ∀ y ∈ (bs.foldl (fun d b => releaseOne noReleaseFaults d b now) db).bookings,
      (y ∈ db.bookings ∧ ∀ b ∈ bs, b.id ≠ y.id) ∨ y.cancelledAt ≠ none := by
  induction bs generalizing db with
  | nil =>
    intro y hy
    exact Or.inl ⟨hy, by simp⟩
  | cons b rest ih =>
    intro y hy
    have hfound : ∃ x, db.bookings.find? (fun x => x.id == b.id) = some x := by
      obtain ⟨x, hx, hid⟩ := hpres b (by simp)
      have : (db.bookings.find? (fun x => x.id == b.id)).isSome :=
        List.find?_isSome.mpr ⟨x, hx, by simp [hid]⟩
      cases hf : db.bookings.find? (fun x => x.id == b.id) with
      | none => rw [hf] at this; exact absurd this (by simp)
      | some x' => exact ⟨x', rfl⟩
    obtain ⟨x0, hx0⟩ := hfound
    have hbooks : (releaseOne noReleaseFaults db b now).bookings =
        db.bookings.map (fun x =>
          if x.id == b.id then
            { x with cancelledAt := some now, paymentStatus := "cancelled" }
          else x) := by
      rw [releaseOne_noFault_bookings, hx0]
    have hpres' : ∀ b' ∈ rest, ∃ x ∈ (releaseOne noReleaseFaults db b now).bookings,
        x.id = b'.id := by
      intro b' hb'
      obtain ⟨x, hx, hid⟩ := hpres b' (by simp [hb'])
      rw [hbooks]
      by_cases hc : (x.id == b.id) = true
      · exact ⟨{ x with cancelledAt := some now, paymentStatus := "cancelled" },
          List.mem_map.mpr ⟨x, hx, by rw [if_pos hc]⟩, hid⟩
      · exact ⟨x, List.mem_map.mpr ⟨x, hx, by rw [if_neg hc]⟩, hid⟩
    have := ih (releaseOne noReleaseFaults db b now) hpres' y (by simpa using hy)
    rcases this with ⟨hymem, hyrest⟩ | hyc
    · rw [hbooks] at hymem
      obtain ⟨x, hx, hpatch⟩ := List.mem_map.mp hymem
      by_cases hc : (x.id == b.id) = true
      · rw [if_pos hc] at hpatch
        right
        rw [← hpatch]
        simp
      · rw [if_neg hc] at hpatch
        subst hpatch
        left
        refine ⟨hx, ?_⟩
        intro b' hb'
        rcases List.mem_cons.mp hb' with hb' | hb'
        · subst hb'
          simpa using fun hc' => hc (by simp [hc'])
        · exact hyrest b' hb'
    · exact Or.inr hyc

/-- C4 (amended): the sweep's selection query excludes cancelled rows, so an
already-reaped reservation is never selected again and a second sweep right
after a fault-free sweep is a no-op (with any fault oracle); however, after
a partial failure in which the ticket restore succeeded but the cancellation
UPDATE failed, the reservation remains selectable and a re-run restores its
ticket again (per the counterexample). -/
theorem claim_C4_reaper_idempotence_amended :
    (∀ (db : DB) (now : Int) (b : Booking), b.cancelledAt ≠ none →
      b ∉ findUnpaidExpiredBookings db now) ∧
    (∀ (db : DB) (now : Int) (f : Nat → ReleaseFaults),
      releaseUnpaidBookings f
        (releaseUnpaidBookings (fun _ => noReleaseFaults) db now) now =
      releaseUnpaidBookings (fun _ => noReleaseFaults) db now) := by
  constructor
  · intro db now b hc hmem
    have := List.of_mem_filter hmem
    simp only [Bool.and_eq_true, beq_iff_eq] at this
    exact hc this.2
  · intro db now f
    have hstep : ∀ (g : Nat → ReleaseFaults) (d : DB),
        findUnpaidExpiredBookings d now = [] → releaseUnpaidBookings g d now = d := by
      intro g d h
      unfold releaseUnpaidBookings
      rw [h]
      rfl
    apply hstep
    have hsw := sweep_cancels now (findUnpaidExpiredBookings db now) db
      (fun b hb => ⟨b, List.mem_of_mem_filter hb, rfl⟩)
    unfold findUnpaidExpiredBookings
    rw [List.filter_eq_nil_iff]
    intro y hy hpred
    simp only [Bool.and_eq_true, beq_iff_eq] at hpred
    have hy' : y ∈ (List.foldl (fun d b => releaseOne noReleaseFaults d b now) db
        (findUnpaidExpiredBookings db now)).bookings := by
      simpa [releaseUnpaidBookings] using hy
    rcases hsw y hy' with ⟨hymem, hyall⟩ | hyc
    · have hmem : y ∈ findUnpaidExpiredBookings db now := by
        apply List.mem_filter.mpr
        refine ⟨hymem, ?_⟩
        simp only [Bool.and_eq_true, beq_iff_eq]
        exact hpred
      exact hyall y hmem rfl
    · exact hyc hpred.2

/-- C4 amended witness: an already-cancelled copy of `fxBkPending` is not
selected by the sweep, and a fault-free sweep of `fxDbExpired` followed by
any second sweep is a no-op. -/
theorem claim_C4_reaper_idempotence_amended_witness :
    { fxBkPending with cancelledAt := some 5 } ∉
      findUnpaidExpiredBookings fxDbExpired 20 ∧
    releaseUnpaidBookings (fun _ => noReleaseFaults)
        (releaseUnpaidBookings (fun _ => noReleaseFaults) fxDbExpired 20) 20 =
      releaseUnpaidBookings (fun _ => noReleaseFaults) fxDbExpired 20 :=
  ⟨claim_C4_reaper_idempotence_amended.1 fxDbExpired 20
      { fxBkPending with cancelledAt := some 5 } (by decide),
   claim_C4_reaper_idempotence_amended.2 fxDbExpired 20 (fun _ => noReleaseFaults)⟩

/-! ## Capacity-invariant lemmas -/

/-- Appending a booking adds its slots to exactly its session's active sum. -/
theorem consumed_append (l : List Booking) (b : Booking) (k : Nat) :
    (((l ++ [b]).filter (fun x => x.sessionId == k && x.cancelledAt == none)).map
      slotsConsumed).sum =
    ((l.filter (fun x => x.sessionId == k && x.cancelledAt == none)).map
      slotsConsumed).sum +
    (if b.sessionId == k && b.cancelledAt == none then slotsConsumed b else 0) := by
  rw [List.filter_append]
  simp only [List.filter_cons, List.filter_nil]
  split
  · simp
  · simp

/-- Marking `bk` cancelled removes exactly its slots from its session's
active sum (booking ids unique). -/
theorem consumed_cancel_patch (l : List Booking) (bk : Booking) (now : Int) (k : Nat)
    (hmem : bk ∈ l) (hnodup : (l.map Booking.id).Nodup) (hact : bk.cancelledAt = none) :
    (((l.map (fun x => if x.id == bk.id then
        { x with cancelledAt := some now, paymentStatus := "cancelled" } else x)).filter
        (fun x => x.sessionId == k && x.cancelledAt == none)).map slotsConsumed).sum =
    ((l.filter (fun x => x.sessionId == k && x.cancelledAt == none)).map
      slotsConsumed).sum -
    (if bk.sessionId == k then slotsConsumed bk else 0) := by
  induction l with
  | nil => exact absurd hmem (by simp)
  | cons t rest ih =>
    simp only [List.map_cons, List.map_nil] at hnodup
    rw [List.nodup_cons] at hnodup
    obtain ⟨hnotin, hnodup'⟩ := hnodup
    rcases List.mem_cons.mp hmem with heq | hmem'
    · rw [← heq] at hnotin ⊢
      have hrest : rest.map (fun x => if x.id == bk.id then
          { x with cancelledAt := some now, paymentStatus := "cancelled" } else x) =
          rest.map id :=
        List.map_congr_left (fun x hx => by
          rw [if_neg]
          · rfl
          simp only [beq_iff_eq]
          intro hc
          exact hnotin (hc ▸ List.mem_map_of_mem Booking.id hx))
      simp only [List.map_cons, hrest, List.map_id]
      rw [if_pos (by simp)]
      simp only [List.filter_cons]
      split
      · rename_i hcond
        exfalso
        simp at hcond
      split
      · rename_i hc
        simp only [Bool.and_eq_true, beq_iff_eq] at hc
        rw [if_pos (by simp [hc.1])]
        simp [slotsConsumed]
      · rename_i hc
        rw [if_neg ?hcc]
        · omega
        case hcc =>
          simp only [Bool.and_eq_true, beq_iff_eq, hact] at hc
          simp only [beq_iff_eq]
          intro hk
          exact hc ⟨hk, trivial⟩
    · have htid : (t.id == bk.id) = false := by
        simp only [beq_eq_false_iff_ne, ne_eq]
        intro hc
        exact hnotin (hc ▸ List.mem_map_of_mem Booking.id hmem')
      simp only [List.map_cons, htid, Bool.false_eq_true, if_false]
      simp only [List.filter_cons]
      split
      · simp only [List.map_cons, List.sum_cons]
        rw [ih hmem' hnodup']
        omega
      · exact ih hmem' hnodup'

/-- Active slot sums are non-negative when every booking has a non-negative
guest count. -/
theorem consumed_nonneg (l : List Booking) (p : Booking → Bool)
    (h : ∀ x ∈ l, 0 ≤ x.guestCount) :
    0 ≤ ((l.filter p).map slotsConsumed).sum := by
  apply List.sum_nonneg
  intro x hx
  obtain ⟨b, hb, rfl⟩ := List.mem_map.mp hx
  have := h b (List.mem_of_mem_filter hb)
  unfold slotsConsumed
  omega

/-- With unique session keys, every row carrying the looked-up key is the
looked-up row. -/
theorem session_unique (db : DB) (sid : Nat) (session : Session)
    (hS : (db.sessions.map Prod.fst).Nodup)
    (hfind : findSessionById db sid = some session) :
    ∀ p ∈ db.sessions, p.1 = sid → p.2 = session := by
  intro p hp hpk
  simp only [findSessionById] at hfind
  cases hf : db.sessions.find? (fun q => q.1 == sid) with
  | none => rw [hf] at hfind; exact absurd hfind (by simp)
  | some p0 =>
    rw [hf] at hfind
    have hfind' : p0.2 = session := by simpa using hfind
    have hp0 : p0 ∈ db.sessions := List.mem_of_find?_eq_some hf
    have hp0k : p0.1 = sid := by
      have := List.find?_some hf
      simpa using this
    have : p = p0 := List.inj_on_of_nodup_map hS hp hp0 (by rw [hpk, hp0k])
    rw [this, hfind']

/-- A successful reservation preserves primary-key well-formedness,
non-negative guest counts, the capacity invariant, and the one-active-
reservation-per-(user, session) property. -/
theorem createBooking_preserves (db : DB) (u sid : Nat) (gc : Int) (pm : String)
    (nd now : Int) (code : String) (db' : DB) (bk : Booking)
    (h : createBookingWithLock db u sid gc pm nd now code = .ok (db', bk))
    (hWF : db.WF) (hg : bookingsGuestsNonneg db) (hgc : 0 ≤ gc)
    (hinv : dbSessionInv db) (huniq : uniqueActivePerUserSession db) :
    db'.WF ∧ bookingsGuestsNonneg db' ∧ dbSessionInv db' ∧
    uniqueActivePerUserSession db' := by
  obtain ⟨session, hsess, hact, hcanc, hpast, havail, hbu, hbs, hbg, hbc, hbp, hbca,
    hbid, hgp, hst, hdl, hsessions, hbookings, hnid, hcases⟩ :=
    createBookingWithLock_ok_spec db u sid gc pm nd now code db' bk h
  obtain ⟨hSn, hSubn, hBn, hFresh⟩ := hWF
  have hseskeys : db'.sessions.map Prod.fst = db.sessions.map Prod.fst := by
    rw [hsessions, List.map_map]
    apply List.map_congr_left
    intro p hp
    simp only [Function.comp]
    split <;> rfl
  have hsubids : db'.subscriptions.map Subscription.id =
      db.subscriptions.map Subscription.id := by
    rcases hcases with ⟨-, -, -, -, hsubs, -⟩ | ⟨sub, s', -, -, -, -, -, -, hsubs, -⟩ |
      ⟨sub, -, -, -, -, -, hsubs, -⟩
    · rw [hsubs]
    · rw [hsubs, List.map_map]
      apply List.map_congr_left
      intro x hx
      simp only [Function.comp]
      split <;> rfl
    · rw [hsubs]
  refine ⟨⟨?_, ?_, ?_, ?_⟩, ?_, ?_, ?_⟩
  · rw [hseskeys]; exact hSn
  · rw [hsubids]; exact hSubn
  · rw [hbookings, List.map_append, List.nodup_append]
    refine ⟨hBn, by simp, ?_⟩
    intro a ha hb
    simp only [List.map_cons, List.map_nil, List.mem_singleton] at hb
    obtain ⟨b0, hb0, hb0id⟩ := List.mem_map.mp ha
    have := hFresh b0 hb0
    rw [hb0id, hb, hbid] at this
    omega
  · intro b hb
    rw [hbookings] at hb
    rw [hnid]
    rcases List.mem_append.mp hb with hb | hb
    · have := hFresh b hb; omega
    · simp only [List.mem_singleton] at hb
      rw [hb, hbid]
      omega
  · intro b hb
    rw [hbookings] at hb
    rcases List.mem_append.mp hb with hb | hb
    · exact hg b hb
    · simp only [List.mem_singleton] at hb
      rw [hb, hbg]
      exact hgc
  · intro p' hp'
    rw [hsessions] at hp'
    obtain ⟨p0, hp0, hpatch⟩ := List.mem_map.mp hp'
    have hinv0 := hinv p0 hp0
    have hconsumed : ∀ k : Nat, consumedSlots db' k =
        consumedSlots db k + (if sid == k then 1 + gc else 0) := by
      intro k
      unfold consumedSlots activeSessionBookings
      rw [hbookings, consumed_append]
      congr 1
      rw [hbs, hbca]
      by_cases hk : (sid == k) = true
      · rw [if_pos (by simp [hk]), if_pos hk]
        unfold slotsConsumed
        rw [hbg]
      · rw [if_neg (by simp [hk]), if_neg hk]
    by_cases hc : (p0.1 == sid) = true
    · rw [if_pos hc] at hpatch
      have hps : p0.1 = sid := by simpa using hc
      have hp0sess : p0.2 = session :=
        session_unique db sid session hSn hsess p0 hp0 hps
      subst hpatch
      obtain ⟨h1, h2, h3⟩ := hinv0
      have hk : (sid == p0.1) = true := by simp [hps]
      constructor
      · simp only [hp0sess]
        omega
      constructor
      · simp only [hp0sess]
        rw [hp0sess] at h1 h2
        omega
      · rw [hconsumed p0.1, if_pos hk, ← h3]
        simp only [hp0sess]
        omega
    · rw [if_neg hc] at hpatch
      subst hpatch
      obtain ⟨h1, h2, h3⟩ := hinv0
      refine ⟨h1, h2, ?_⟩
      have hps : p0.1 ≠ sid := by simpa using hc
      rw [hconsumed p0.1, if_neg (by simp only [beq_iff_eq]; exact fun hx => hps hx.symm),
        ← h3]
      omega
  · intro u0 s0
    rw [hbookings, List.countP_append]
    by_cases hmatch : (bk.userId == u0 && bk.sessionId == s0 &&
        bk.cancelledAt == none) = true
    · simp only [Bool.and_eq_true, beq_iff_eq] at hmatch
      have hu0 : u0 = u := by rw [← hmatch.1.1, hbu]
      have hs0 : s0 = sid := by rw [← hmatch.1.2, hbs]
      rw [hu0, hs0]
      have hzero : db.bookings.countP (fun b =>
          b.userId == u && b.sessionId == sid && b.cancelledAt == none) = 0 := by
        rw [List.countP_eq_zero]
        intro b hb hp
        have hany : hasActiveBookingForSession db u sid = true :=
          List.any_eq_true.mpr ⟨b, hb, hp⟩
        rw [hact] at hany
        exact absurd hany (by simp)
      rw [hzero]
      simp [List.countP_cons, hbu, hbs, hbca, hu0, hs0]
    · have hone : List.countP (fun b => b.userId == u0 && b.sessionId == s0 &&
          b.cancelledAt == none) [bk] = 0 := by
        simp only [List.countP_cons, List.countP_nil, hmatch]
        simp
      rw [hone]
      have := huniq u0 s0
      omega

/-- The capacity invariant only looks at the session and booking tables. -/
theorem dbSessionInv_of_eq (db db' : DB)
    (hs : db'.sessions = db.sessions)
    (hb : db'.bookings = db.bookings)
    (h : dbSessionInv db) : dbSessionInv db' := by
  intro p hp
  rw [hs] at hp
  have := h p hp
  unfold sessionInv consumedSlots activeSessionBookings at this ⊢
  rw [hb]
  exact this

/-- Core of the reversal path: marking an active reservation cancelled and
then releasing its `1 + guest_count` slots to its session preserves the
capacity invariant. -/
theorem cancelRelease_sessions_core (db db1 : DB) (bk : Booking) (now : Int)
    (hmem : bk ∈ db.bookings) (hact : bk.cancelledAt = none)
    (hB : (db.bookings.map Booking.id).Nodup)
    (hg : bookingsGuestsNonneg db) (hinv : dbSessionInv db)
    (h1b : db1.bookings = db.bookings) (h1s : db1.sessions = db.sessions)
    (db2 : DB) (rbk : Booking)
    (hrow : cancelBookingRow db1 bk.id now = some (rbk, db2)) :
    dbSessionInv (incrementAvailableSlots db2 bk.sessionId (1 + bk.guestCount)) := by
  obtain ⟨hdb2, b0, hfindb, -⟩ := cancelBookingRow_some_spec db1 bk.id now rbk db2 hrow
  subst hdb2
  intro p hp
  simp only [incrementAvailableSlots, h1s, h1b] at hp
  obtain ⟨p0, hp0, hpatch⟩ := List.mem_map.mp hp
  have hinv0 := hinv p0 hp0
  obtain ⟨h1, h2, h3⟩ := hinv0
  have hconsumed : ∀ k : Nat,
      consumedSlots (incrementAvailableSlots
        { db1 with bookings := db1.bookings.map (fun x =>
            if x.id == bk.id then
              { x with cancelledAt := some now, paymentStatus := "cancelled" }
            else x) } bk.sessionId (1 + bk.guestCount)) k =
      consumedSlots db k - (if bk.sessionId == k then slotsConsumed bk else 0) := by
    intro k
    unfold consumedSlots activeSessionBookings
    simp only [incrementAvailableSlots, h1b]
    exact consumed_cancel_patch db.bookings bk now k hmem hB hact
  have hguests : ∀ x ∈ db1.bookings.map (fun x =>
      if x.id == bk.id then
        { x with cancelledAt := some now, paymentStatus := "cancelled" }
      else x), 0 ≤ x.guestCount := by
    intro x hx
    rw [h1b] at hx
    obtain ⟨x0, hx0, hpx⟩ := List.mem_map.mp hx
    have := hg x0 hx0
    by_cases hc : (x0.id == bk.id) = true
    · rw [if_pos hc] at hpx; rw [← hpx]; exact this
    · rw [if_neg hc] at hpx; rw [← hpx]; exact this
  have hgbk : 0 ≤ bk.guestCount := hg bk hmem
  by_cases hc : (p0.1 == bk.sessionId) = true
  · rw [if_pos hc] at hpatch
    subst hpatch
    have hks : (bk.sessionId == p0.1) = true := by
      simp only [beq_iff_eq] at hc ⊢
      exact hc.symm
    refine ⟨?_, ?_, ?_⟩
    · simp only
      unfold slotsConsumed at *
      omega
    · simp only
      have hcons_nonneg : 0 ≤ consumedSlots (incrementAvailableSlots
          { db1 with bookings := db1.bookings.map (fun x =>
              if x.id == bk.id then
                { x with cancelledAt := some now, paymentStatus := "cancelled" }
              else x) } bk.sessionId (1 + bk.guestCount)) p0.1 := by
        unfold consumedSlots activeSessionBookings
        simp only [incrementAvailableSlots]
        exact consumed_nonneg _ _ hguests
      rw [hconsumed p0.1, if_pos hks] at hcons_nonneg
      unfold slotsConsumed at *
      omega
    · rw [hconsumed p0.1, if_pos hks]
      simp only
      unfold slotsConsumed at *
      omega
  · rw [if_neg hc] at hpatch
    subst hpatch
    refine ⟨h1, h2, ?_⟩
    rw [hconsumed p0.1, if_neg (by simp only [beq_iff_eq] at hc ⊢; exact fun hx => hc hx.symm)]
    omega

/-- A fault-free cancellation preserves the capacity invariant on every
path. -/
theorem cancelBooking_preserves_sessionInv (db : DB) (bookingId userId : Nat)
    (now : Int)
    (hB : (db.bookings.map Booking.id).Nodup)
    (hg : bookingsGuestsNonneg db) (hinv : dbSessionInv db) :
    dbSessionInv (cancelBooking noCancelFaults db bookingId userId now).2 := by
  simp only [cancelBooking, noCancelFaults]
  rw [if_neg (by simp)]
  cases hbk : findBookingById db bookingId with
  | none => exact hinv
  | some bk =>
    simp only
    split
    · exact hinv
    split
    · exact hinv
    rename_i hu hca
    have hact : bk.cancelledAt = none := by simpa using hca
    rw [if_neg (by simp)]
    cases hsess : findSessionById db bk.sessionId with
    | none => exact hinv
    | some session =>
      simp only
      rw [if_neg (by simp)]
      have hb1 := restoreTicketAndLog_frame false false false db userId bookingId
        bk.ticketsUsed
      have hbkid : bk.id = bookingId := by simpa using List.find?_some hbk
      have hbmem : bk ∈ db.bookings := List.mem_of_find?_eq_some hbk
      by_cases hsubq : hasActiveSubscription db userId = true <;>
        simp only [hsubq, if_true, Bool.false_eq_true, if_false] <;>
      · split
        · exact hinv
        cases hrow : cancelBookingRow
            (restoreTicketAndLog false false false db userId bookingId bk.ticketsUsed)
            bookingId now with
        | none => exact dbSessionInv_of_eq _ _ hb1.2.1 hb1.1 hinv
        | some pr =>
          obtain ⟨rbk, db2⟩ := pr
          simp only
          refine cancelRelease_sessions_core db
            (restoreTicketAndLog false false false db userId bookingId bk.ticketsUsed)
            bk now hbmem hact hB hg hinv hb1.1 hb1.2.1 db2 rbk ?_
          rw [hbkid]
          exact hrow

/-- One fault-free reaper release of a present, active reservation preserves
the capacity invariant. -/
theorem releaseOne_preserves_sessionInv (db : DB) (b : Booking) (now : Int)
    (hmem : b ∈ db.bookings) (hact : b.cancelledAt = none)
    (hB : (db.bookings.map Booking.id).Nodup)
    (hg : bookingsGuestsNonneg db) (hinv : dbSessionInv db) :
    dbSessionInv (releaseOne noReleaseFaults db b now) := by
  simp only [releaseOne, noReleaseFaults]
  rw [if_neg (by simp)]
  have hb1 := restoreTicketAndLog_frame false false false db b.userId b.id b.ticketsUsed
  cases hrow : cancelBookingRow
      (restoreTicketAndLog false false false db b.userId b.id b.ticketsUsed)
      b.id now with
  | none => exact dbSessionInv_of_eq _ _ hb1.2.1 hb1.1 hinv
  | some pr =>
    obtain ⟨rbk, db2⟩ := pr
    simp only
    rw [if_neg (by simp)]
    exact cancelRelease_sessions_core db
      (restoreTicketAndLog false false false db b.userId b.id b.ticketsUsed)
      b now hmem hact hB hg hinv hb1.1 hb1.2.1 db2 rbk hrow

/-- Creating a session with non-negative capacity and a fresh id preserves
the capacity invariant. -/
theorem createSession_preserves_sessionInv (db : DB) (id : Nat) (date time : Int)
    (courts : Int) (maxPlayersPerCourt priceVnd : Option Int)
    (hinv : dbSessionInv db)
    (htot : 0 ≤ courts * maxPlayersPerCourt.getD 6)
    (hfresh : ∀ b ∈ db.bookings, b.sessionId ≠ id) :
    dbSessionInv (createSession db id date time courts maxPlayersPerCourt priceVnd).1 := by
  intro p hp
  have hbooks : (createSession db id date time courts maxPlayersPerCourt priceVnd).1.bookings
      = db.bookings := rfl
  have hsessions : (createSession db id date time courts maxPlayersPerCourt
      priceVnd).1.sessions = db.sessions ++
      [(id, (createSession db id date time courts maxPlayersPerCourt priceVnd).2)] := rfl
  rw [hsessions] at hp
  rcases List.mem_append.mp hp with hp | hp
  · have := hinv p hp
    unfold sessionInv consumedSlots activeSessionBookings at this ⊢
    rw [hbooks]
    exact this
  · simp only [List.mem_singleton] at hp
    subst hp
    unfold sessionInv consumedSlots activeSessionBookings
    rw [hbooks]
    have hnil : db.bookings.filter
        (fun b => b.sessionId == id && b.cancelledAt == none) = [] := by
      rw [List.filter_eq_nil_iff]
      intro b hb hpb
      simp only [Bool.and_eq_true, beq_iff_eq] at hpb
      exact hfresh b hb hpb.1
    have hT : (createSession db id date time courts maxPlayersPerCourt
        priceVnd).2.totalSlots = courts * maxPlayersPerCourt.getD 6 := rfl
    have hA : (createSession db id date time courts maxPlayersPerCourt
        priceVnd).2.availableSlots = courts * maxPlayersPerCourt.getD 6 := rfl
    simp only [hnil, List.map_nil, List.sum_nil]
    rw [hT, hA]
    omega

/-- Replacing one session row preserves the capacity invariant as soon as
the replacement keeps `total - available` (the booked count) and the
`0 ≤ available ≤ total` bounds. -/
theorem sessionInv_update_entry (db db' : DB) (id : Nat) (upd current : Session)
    (hbooks : db'.bookings = db.bookings)
    (hsessions : db'.sessions =
      db.sessions.map (fun q => if q.1 == id then (q.1, upd) else q))
    (hS : (db.sessions.map Prod.fst).Nodup)
    (hinv : dbSessionInv db)
    (hcur : findSessionById db id = some current)
    (hupd1 : 0 ≤ upd.availableSlots)
    (hupd2 : upd.availableSlots ≤ upd.totalSlots)
    (hupd3 : upd.totalSlots - upd.availableSlots =
      current.totalSlots - current.availableSlots) :
    dbSessionInv db' := by
  intro p hp
  rw [hsessions] at hp
  obtain ⟨p0, hp0, hpatch⟩ := List.mem_map.mp hp
  have hinv0 := hinv p0 hp0
  obtain ⟨h1, h2, h3⟩ := hinv0
  unfold sessionInv consumedSlots activeSessionBookings
  rw [hbooks]
  by_cases hc : (p0.1 == id) = true
  · rw [if_pos hc] at hpatch
    have hps : p0.1 = id := by simpa using hc
    have hp0cur : p0.2 = current := session_unique db id current hS hcur p0 hp0 hps
    subst hpatch
    simp only
    rw [hp0cur] at h3
    refine ⟨hupd1, hupd2, ?_⟩
    unfold consumedSlots activeSessionBookings at h3
    omega
  · rw [if_neg hc] at hpatch
    subst hpatch
    unfold consumedSlots activeSessionBookings at h3
    exact ⟨h1, h2, h3⟩

/-- `update_session` preserves the capacity invariant whenever the new total
capacity is at least the booked slot count. -/
theorem updateSession_preserves_sessionInv (db : DB) (id : Nat)
    (date time courts maxPlayersPerCourt priceVnd : Option Int)
    (db' : DB) (s' : Session) (current : Session)
    (hS : (db.sessions.map Prod.fst).Nodup)
    (hinv : dbSessionInv db)
    (hcur : findSessionById db id = some current)
    (hok : updateSession db id date time courts maxPlayersPerCourt priceVnd =
      .ok (db', s'))
    (hroom : current.totalSlots - current.availableSlots ≤
      courts.getD current.courts *
        ((maxPlayersPerCourt.or current.maxPlayersPerCourt).getD 6)) :
    dbSessionInv db' := by
  simp only [updateSession, hcur] at hok
  simp only [Except.ok.injEq, Prod.mk.injEq] at hok
  obtain ⟨hdb', hs'⟩ := hok
  have hcurinv : 0 ≤ current.availableSlots ∧
      current.availableSlots ≤ current.totalSlots := by
    simp only [findSessionById] at hcur
    cases hf : db.sessions.find? (fun q => q.1 == id) with
    | none => rw [hf] at hcur; exact absurd hcur (by simp)
    | some pc =>
      rw [hf] at hcur
      have hpc2 : pc.2 = current := by simpa using hcur
      have hpc := hinv pc (List.mem_of_find?_eq_some hf)
      rw [hpc2] at hpc
      exact ⟨hpc.1, hpc.2.1⟩
  have hA : s'.availableSlots = max (courts.getD current.courts *
      ((maxPlayersPerCourt.or current.maxPlayersPerCourt).getD 6) -
      (current.totalSlots - current.availableSlots)) 0 := by rw [← hs']
  have hT : s'.totalSlots = courts.getD current.courts *
      ((maxPlayersPerCourt.or current.maxPlayersPerCourt).getD 6) := by rw [← hs']
  have hmax : s'.availableSlots = courts.getD current.courts *
      ((maxPlayersPerCourt.or current.maxPlayersPerCourt).getD 6) -
      (current.totalSlots - current.availableSlots) := by
    rw [hA]
    exact max_eq_left (by omega)
  refine sessionInv_update_entry db db' id s' current ?_ ?_ hS hinv hcur ?_ ?_ ?_
  · rw [← hdb']
  · rw [← hdb', ← hs']
  · rw [hmax]; omega
  · rw [hmax, hT]; omega
  · rw [hmax, hT]; omega

/-! ## C2 — the capacity invariant -/

/-- Reservation of user 1 with 5 guests (6 slots). -/
def fxBkA : Booking :=
  { id := 0, userId := 1, sessionId := 1, bookingCode := "LB-AAAAA",
    guestCount := 5, ticketsUsed := 0, discountApplied := "none",
    pricePaidVnd := 100000, guestPricePaidVnd := 500000, paymentMethod := "cash",
    paymentStatus := "pending", paymentDeadline := some 10, cancelledAt := none }

/-- Reservation of user 2 with 5 guests (6 slots). -/
def fxBkB : Booking :=
  { id := 1, userId := 2, sessionId := 1, bookingCode := "LB-BBBBB",
    guestCount := 5, ticketsUsed := 0, discountApplied := "none",
    pricePaidVnd := 100000, guestPricePaidVnd := 500000, paymentMethod := "cash",
    paymentStatus := "pending", paymentDeadline := some 10, cancelledAt := none }

/-- Session 1 fully booked: 12 slots, all consumed by `fxBkA` and `fxBkB`. -/
def fxDbFull : DB :=
  { sessions := [(1, { fxSession with availableSlots := 0 })],
    bookings := [fxBkA, fxBkB],
    subscriptions := [], ticketTransactions := [],
    configOutOfTicketDiscount := none, nextBookingId := 2, nextCreatedAt := 0 }

/-- The session row produced by shrinking `fxDbFull`'s session to 1 court. -/
def fxSessionShrunk : Session :=
  { date := 100, time := 600, courts := 1, maxPlayersPerCourt := some 6,
    totalSlots := 6, availableSlots := 0, priceVnd := none,
    dropInCancellationHours := none, subscriberCancellationHours := none,
    cancelled := false }

/-- `fxDbFull` after the shrinking update. -/
def fxDbShrunk : DB :=
  { fxDbFull with sessions := [(1, fxSessionShrunk)] }

/-- C2 counterexample: `update_session` clamps
`available_slots = max (new_total - booked) 0`; shrinking a fully-booked
12-slot session to 6 total slots yields `total - available = 6` while the
active reservations still consume 12 slots — the session-update operation
does not preserve the invariant. -/
theorem claim_C2_counterexample :
    dbSessionInv fxDbFull ∧
    updateSession fxDbFull 1 none none (some 1) none none =
      .ok (fxDbShrunk, fxSessionShrunk) ∧
    ¬ dbSessionInv fxDbShrunk :=
  ⟨by decide, by rfl, by decide⟩

/-- C2 (amended): the capacity invariant
(`0 ≤ available ≤ total` and `total - available = Σ active slots`)
is preserved by session creation (fresh id, non-negative capacity), by
reservation creation, by fault-free cancellation, and by each fault-free
expiry release; the session update preserves it only when the new total
capacity is at least the booked count — shrinking below it breaks the
invariant (per the counterexample). -/
theorem claim_C2_capacity_invariant_amended :
    (∀ (db : DB) (id : Nat) (date time : Int) (courts : Int)
       (maxPlayersPerCourt priceVnd : Option Int),
      dbSessionInv db → 0 ≤ courts * maxPlayersPerCourt.getD 6 →
      (∀ b ∈ db.bookings, b.sessionId ≠ id) →
      dbSessionInv (createSession db id date time courts maxPlayersPerCourt priceVnd).1) ∧
    (∀ (db : DB) (u sid : Nat) (gc : Int) (pm : String) (nd now : Int)
       (code : String) (db' : DB) (bk : Booking),
      createBookingWithLock db u sid gc pm nd now code = .ok (db', bk) →
      db.WF → bookingsGuestsNonneg db → 0 ≤ gc → dbSessionInv db →
      uniqueActivePerUserSession db →
      dbSessionInv db') ∧
    (∀ (db : DB) (bookingId userId : Nat) (now : Int),
      (db.bookings.map Booking.id).Nodup → bookingsGuestsNonneg db →
      dbSessionInv db →
      dbSessionInv (cancelBooking noCancelFaults db bookingId userId now).2) ∧
    (∀ (db : DB) (b : Booking) (now : Int),
      b ∈ db.bookings → b.cancelledAt = none →
      (db.bookings.map Booking.id).Nodup → bookingsGuestsNonneg db →
      dbSessionInv db →
      dbSessionInv (releaseOne noReleaseFaults db b now)) ∧
    (∀ (db : DB) (id : Nat) (date time courts maxPlayersPerCourt priceVnd : Option Int)
       (db' : DB) (s' current : Session),
      (db.sessions.map Prod.fst).Nodup → dbSessionInv db →
      findSessionById db id = some current →
      updateSession db id date time courts maxPlayersPerCourt priceVnd = .ok (db', s') →
      current.totalSlots - current.availableSlots ≤
        courts.getD current.courts *
          ((maxPlayersPerCourt.or current.maxPlayersPerCourt).getD 6) →
      dbSessionInv db') :=
  ⟨fun db id date time courts mpc price hinv htot hfresh =>
      createSession_preserves_sessionInv db id date time courts mpc price hinv htot hfresh,
   fun db u sid gc pm nd now code db' bk h hWF hg hgc hinv huniq =>
      (createBooking_preserves db u sid gc pm nd now code db' bk h hWF hg hgc hinv
        huniq).2.2.1,
   fun db bookingId userId now hB hg hinv =>
      cancelBooking_preserves_sessionInv db bookingId userId now hB hg hinv,
   fun db b now hmem hact hB hg hinv =>
      releaseOne_preserves_sessionInv db b now hmem hact hB hg hinv,
   fun db id date time courts mpc price db' s' current hS hinv hcur hok hroom =>
      updateSession_preserves_sessionInv db id date time courts mpc price db' s'
        current hS hinv hcur hok hroom⟩

/-- The session row produced by growing `fxDbFull`'s session to 3 courts. -/
def fxSessionGrown : Session :=
  { date := 100, time := 600, courts := 3, maxPlayersPerCourt := some 6,
    totalSlots := 18, availableSlots := 6, priceVnd := none,
    dropInCancellationHours := none, subscriberCancellationHours := none,
    cancelled := false }

/-- `fxDbFull` after the growing update. -/
def fxDbGrown : DB :=
  { fxDbFull with sessions := [(1, fxSessionGrown)] }

/-- C2 amended witness: every conjunct applied at a concrete state. -/
theorem claim_C2_capacity_invariant_amended_witness :
    dbSessionInv (createSession fxDb 2 100 600 2 (some 6) none).1 ∧
    dbSessionInv fxDbSubAfter ∧
    dbSessionInv (cancelBooking noCancelFaults fxDbExpired 0 1 20).2 ∧
    dbSessionInv (releaseOne noReleaseFaults fxDbExpired fxBkPending 20) ∧
    dbSessionInv fxDbGrown :=
  ⟨claim_C2_capacity_invariant_amended.1 fxDb 2 100 600 2 (some 6) none
      (by decide) (by decide) (by decide),
   claim_C2_capacity_invariant_amended.2.1 fxDbSub 1 1 2 "cash" 50 1000 "LB-AAAAA"
      fxDbSubAfter fxBkSub (by rfl) (by decide) (by decide) (by decide) (by decide)
      (fun u0 s0 => by simp [fxDbSub, fxDb]),
   claim_C2_capacity_invariant_amended.2.2.1 fxDbExpired 0 1 20
      (by decide) (by decide) (by decide),
   claim_C2_capacity_invariant_amended.2.2.2.1 fxDbExpired fxBkPending 20
      (by decide) (by decide) (by decide) (by decide) (by decide),
   claim_C2_capacity_invariant_amended.2.2.2.2 fxDbFull 1 none none (some 3) none none
      fxDbGrown fxSessionGrown { fxSession with availableSlots := 0 }
      (by decide) (by decide) (by decide) (by rfl) (by decide)⟩

/-! ## C1 — no overselling under concurrent reservation -/

/-- Classifier for a `Conflict` outcome of reservation creation. -/
def resultIsConflict : Except AppError (DB × Booking) → Bool
  | .error (.conflict _) => true
  | _ => false

/-- One reservation request: the inputs of a `create_booking_with_lock`
invocation. -/
structure CreateRequest where
  userId : Nat
  sessionId : Nat
  guestCount : Int
  paymentMethod : String
  nowDate : Int
  now : Int
  bookingCode : String
  deriving DecidableEq, Repr

/-- Run one reservation request: on success the transaction commits its new
state, on any error the transaction rolls back (state unchanged). -/
def applyCreate (db : DB) (r : CreateRequest) : DB :=
  match createBookingWithLock db r.userId r.sessionId r.guestCount r.paymentMethod
      r.nowDate r.now r.bookingCode with
  | .ok (db', _) => db'
  | .error _ => db

/-- Run a sequence of reservation requests.  `SELECT ... FOR UPDATE` on the
session row serializes concurrent transactions over a session, so an
arbitrary concurrent execution of creation requests is equivalent to some
such sequence. -/
def runCreates (reqs : List CreateRequest) (db : DB) : DB :=
  reqs.foldl applyCreate db

/-- The four state invariants hold after any sequence of reservation
requests with non-negative guest counts. -/
theorem runCreates_preserves (reqs : List CreateRequest) (db : DB)
    (hWF : db.WF) (hg : bookingsGuestsNonneg db) (hinv : dbSessionInv db)
    (huniq : uniqueActivePerUserSession db)
    (hreq : ∀ r ∈ reqs, 0 ≤ r.guestCount) :
    (runCreates reqs db).WF ∧ bookingsGuestsNonneg (runCreates reqs db) ∧
    dbSessionInv (runCreates reqs db) ∧
    uniqueActivePerUserSession (runCreates reqs db) := by
  induction reqs generalizing db with
  | nil => exact ⟨hWF, hg, hinv, huniq⟩
  | cons r rest ih =>
    have hr := hreq r (by simp)
    have hrest : ∀ r' ∈ rest, 0 ≤ r'.guestCount := fun r' h => hreq r' (by simp [h])
    simp only [runCreates, List.foldl_cons]
    cases hres : createBookingWithLock db r.userId r.sessionId r.guestCount
        r.paymentMethod r.nowDate r.now r.bookingCode with
    | error e =>
      have happ : applyCreate db r = db := by simp [applyCreate, hres]
      rw [happ]
      exact ih db hWF hg hinv huniq hrest
    | ok pr =>
      obtain ⟨db', bk⟩ := pr
      have happ : applyCreate db r = db' := by simp [applyCreate, hres]
      rw [happ]
      obtain ⟨hWF', hg', hinv', huniq'⟩ := createBooking_preserves db r.userId
        r.sessionId r.guestCount r.paymentMethod r.nowDate r.now r.bookingCode
        db' bk hres hWF hg hr hinv huniq
      exact ih db' hWF' hg' hinv' huniq' hrest

/-- Reservation creation succeeds whenever the session exists, is not
cancelled or past, has room, and the user has no active reservation. -/
theorem createBooking_success (db : DB) (u sid : Nat) (gc : Int) (pm : String)
    (nd now : Int) (code : String) (session : Session)
    (hsess : findSessionById db sid = some session)
    (hact : hasActiveBookingForSession db u sid = false)
    (hcanc : session.cancelled = false)
    (hpast : ¬ session.date < nd)
    (havail : ¬ session.availableSlots < 1 + gc) :
    ∃ db' bk, createBookingWithLock db u sid gc pm nd now code = .ok (db', bk) := by
  simp only [createBookingWithLock, hsess]
  rw [if_neg (by simp [hact]), if_neg (by simp [hcanc]), if_neg hpast, if_neg havail]
  cases hsub : getActiveForBooking db u with
  | none => exact ⟨_, _, rfl⟩
  | some sub =>
    dsimp only
    by_cases htk : sub.ticketsRemaining > 0
    · rw [if_pos htk]
      have hmem : sub ∈ db.subscriptions := List.mem_of_find?_eq_some hsub
      have hsome : (db.subscriptions.find? (fun s =>
          s.id == sub.id && s.ticketsRemaining > 0)).isSome :=
        List.find?_isSome.mpr ⟨sub, hmem, by simp [htk]⟩
      cases hf : db.subscriptions.find? (fun s =>
          s.id == sub.id && s.ticketsRemaining > 0) with
      | none => rw [hf] at hsome; exact absurd hsome (by simp)
      | some s' =>
        obtain ⟨pr, hd⟩ : ∃ pr, deductTicket db sub.id = some pr := by
          simp only [deductTicket, hf]
          exact ⟨_, rfl⟩
        obtain ⟨nb, dbA⟩ := pr
        simp only [hd]
        exact ⟨_, _, rfl⟩
    · rw [if_neg htk]
      exact ⟨_, _, rfl⟩

/-- Looking a session up after a key-preserving single-row patch. -/
theorem findSessionById_after (db : DB) (sid : Nat) (db' : DB) (f : Session → Session)
    (h : db'.sessions = db.sessions.map (fun p =>
      if p.1 == sid then (p.1, f p.2) else p))
    (session : Session) (hsess : findSessionById db sid = some session) :
    findSessionById db' sid = some (f session) := by
  unfold findSessionById at hsess ⊢
  rw [h, List.find?_map]
  have hpred : ((fun p : Nat × Session => p.1 == sid) ∘ (fun p =>
      if p.1 == sid then (p.1, f p.2) else p)) = fun p => p.1 == sid := by
    funext p
    simp only [Function.comp]
    split <;> rfl
  rw [hpred]
  cases hf : db.sessions.find? (fun p => p.1 == sid) with
  | none => rw [hf] at hsess; exact absurd hsess (by simp)
  | some p0 =>
    rw [hf] at hsess
    have hp0 : p0.2 = session := by simpa using hsess
    have hk : (p0.1 == sid) = true := by simpa using List.find?_some hf
    rw [show (some p0).map (fun p : Nat × Session =>
        if p.1 == sid then (p.1, f p.2) else p) =
        some (if p0.1 == sid then (p0.1, f p0.2) else p0) from rfl]
    rw [if_pos hk, hp0]
    rfl

/-- C1: with the session row lock serializing concurrent creation (modelled
by running requests in sequence): (1) after any sequence of reservation
requests from a well-formed state, at most one active reservation exists per
(user, session) and every session's consumed slots stay within its
`total_slots`; (2) for a session with one slot left, of two serialized
one-slot requests (either order, any two users) the first succeeds and the
second fails with `Conflict`. -/
theorem claim_C1_no_oversell :
    (∀ (reqs : List CreateRequest) (db : DB),
      db.WF → bookingsGuestsNonneg db → dbSessionInv db →
      uniqueActivePerUserSession db → (∀ r ∈ reqs, 0 ≤ r.guestCount) →
      uniqueActivePerUserSession (runCreates reqs db) ∧
      ∀ p ∈ (runCreates reqs db).sessions,
        consumedSlots (runCreates reqs db) p.1 ≤ p.2.totalSlots) ∧
    (∀ (db : DB) (u1 u2 sid : Nat) (pm1 pm2 code1 code2 : String)
       (nd1 nd2 now1 now2 : Int) (session : Session),
      findSessionById db sid = some session →
      session.availableSlots = 1 →
      session.cancelled = false →
      ¬ session.date < nd1 → ¬ session.date < nd2 →
      hasActiveBookingForSession db u1 sid = false →
      hasActiveBookingForSession db u2 sid = false →
      ∃ db1 bk1, createBookingWithLock db u1 sid 0 pm1 nd1 now1 code1 = .ok (db1, bk1) ∧
        resultIsConflict (createBookingWithLock db1 u2 sid 0 pm2 nd2 now2 code2) = true) := by
  constructor
  · intro reqs db hWF hg hinv huniq hreq
    obtain ⟨-, -, hinv', huniq'⟩ := runCreates_preserves reqs db hWF hg hinv huniq hreq
    refine ⟨huniq', ?_⟩
    intro p hp
    obtain ⟨h1, h2, h3⟩ := hinv' p hp
    omega
  · intro db u1 u2 sid pm1 pm2 code1 code2 nd1 nd2 now1 now2 session hsess havail1
      hcanc hpast1 hpast2 hact1 hact2
    have havail : ¬ session.availableSlots < 1 + (0 : Int) := by omega
    obtain ⟨db1, bk1, h1⟩ := createBooking_success db u1 sid 0 pm1 nd1 now1 code1
      session hsess hact1 hcanc hpast1 havail
    refine ⟨db1, bk1, h1, ?_⟩
    obtain ⟨sess2, hsess2, hact', hcanc', hpast', havail', hbu1, hbs1, hbg1, hbc1,
      hbp1, hbca1, hbid1, -, -, -, hsessions1, hbookings1, hnid1, -⟩ :=
      createBookingWithLock_ok_spec db u1 sid 0 pm1 nd1 now1 code1 db1 bk1 h1
    rw [hsess] at hsess2
    injection hsess2 with hsess2
    subst hsess2
    have hfind1 : findSessionById db1 sid =
        some { session with availableSlots := session.availableSlots - (1 + 0) } :=
      findSessionById_after db sid db1
        (fun s => { s with availableSlots := s.availableSlots - (1 + 0) })
        hsessions1 session hsess
    by_cases hu : u2 = u1
    · have hactive : hasActiveBookingForSession db1 u2 sid = true := by
        unfold hasActiveBookingForSession
        rw [hbookings1, List.any_append]
        have hbk1 : (bk1.userId == u2 && bk1.sessionId == sid &&
            bk1.cancelledAt == none) = true := by
          simp [hbu1, hbs1, hbca1, hu]
        simp [hbk1]
      simp only [createBookingWithLock, hfind1]
      rw [if_pos hactive]
      rfl
    · have hactive : hasActiveBookingForSession db1 u2 sid = false := by
        unfold hasActiveBookingForSession at hact2 ⊢
        rw [hbookings1, List.any_append, hact2]
        have hbk1 : (bk1.userId == u2) = false := by
          simp only [hbu1, beq_eq_false_iff_ne, ne_eq]
          exact fun hc => hu hc.symm
        simp [hbk1]
      simp only [createBookingWithLock, hfind1]
      rw [if_neg (by simp [hactive]), if_neg (by simpa using hcanc),
        if_neg (by simpa using hpast2), if_pos (by simp; omega)]
      rfl

/-- Request: user 1 books session 1 alone. -/
def fxReq1 : CreateRequest :=
  { userId := 1, sessionId := 1, guestCount := 0, paymentMethod := "cash",
    nowDate := 50, now := 1000, bookingCode := "LB-A" }

/-- Request: user 2 books session 1 alone. -/
def fxReq2 : CreateRequest :=
  { userId := 2, sessionId := 1, guestCount := 0, paymentMethod := "cash",
    nowDate := 50, now := 1000, bookingCode := "LB-B" }

/-- C1 witness: the sequence of the two concrete requests on `fxDb` keeps
uniqueness and capacity bounds. -/
theorem claim_C1_no_oversell_witness :
    uniqueActivePerUserSession (runCreates [fxReq1, fxReq2] fxDb) ∧
    ∀ p ∈ (runCreates [fxReq1, fxReq2] fxDb).sessions,
      consumedSlots (runCreates [fxReq1, fxReq2] fxDb) p.1 ≤ p.2.totalSlots :=
  claim_C1_no_oversell.1 [fxReq1, fxReq2] fxDb (by decide) (by decide) (by decide)
    (by intro u0 s0; simp [uniqueActivePerUserSession, fxDb]) (by decide)
